import Mathlib

/-!
Verification of the SALON BOARD blog-automation engine.

This file shallowly embeds the pure decision logic of the browser-driven
publication engine and its task-orchestration layer:

* `apps/blog/utils.py` — `smart_truncate`;
* `apps/blog/gemini_client.py` — `_ensure_image_placeholders`;
* `apps/blog/salon_board_client.py` — the `{{image_k}}` token split used by
  `_fill_content_dom`, `_click_reflect_button`, `_check_publication_success`,
  and the observable log/error behaviour of `login`;
* `apps/blog/tasks.py` — the retry/notification control flow of
  `publish_to_salon_board_task` and `generate_blog_content_task`;
* `apps/blog/progress.py` — the progress events of `ProgressNotifier`.

Strings are modelled as `List Char` (Python `str` is a sequence of code
points, which matches Lean `Char` lists).  Python's `\d` and `str.strip()`
accept some further Unicode characters beyond the ASCII/common sets modelled
here; all concrete inputs used below stay inside the modelled sets.
Browser side effects (Playwright calls) are modelled by explicit observation
parameters; everything the claims speak about is a pure function of those
observations.
-/

/-- Literal left brace character, written by code point. -/
def lbrace : Char := '\x7b'

/-- Literal right brace character, written by code point. -/
def rbrace : Char := '\x7d'

/-- Python whitespace for `str.strip()` / `str.split()`:
space, tab, LF, CR, VT, FF and the ideographic space. -/
def isPyWs (c : Char) : Bool :=
  c = ' ' || c = '\t' || c = '\n' || c = '\r' || c = '\x0b' || c = '\x0c' || c = '　'

/-- Decimal digit character for a value below ten. -/
def digitCh (n : Nat) : Char :=
  ⟨⟨⟨48 + n % 10, by omega⟩⟩, Or.inl (by show 48 + n % 10 < 55296; omega)⟩

/-- ASCII decimal digit test (the fragment of Python regex `\d` exercised
here). -/
def isDigitC (c : Char) : Bool := 48 ≤ c.toNat && c.toNat ≤ 57

theorem toNat_digitCh (n : Nat) : (digitCh n).toNat = 48 + n % 10 := rfl

theorem isDigitC_digitCh (n : Nat) : isDigitC (digitCh n) = true := by
  simp only [isDigitC, toNat_digitCh, Bool.and_eq_true, decide_eq_true_eq]
  omega

/-- Fuelled digit extraction (the fuel keeps the recursion structural, so
that the kernel can evaluate it). -/
def natReprF : Nat → Nat → List Char
  | 0, _ => []
  | f + 1, n => if n < 10 then [digitCh n] else natReprF f (n / 10) ++ [digitCh (n % 10)]

/-- Decimal representation of a natural number, most significant digit first
(mirrors Python `str(n)` for naturals). -/
def natRepr (n : Nat) : List Char := natReprF (n + 1) n

theorem natReprF_mono : ∀ fuel n, n < fuel → natReprF fuel n = natRepr n := by
  intro fuel
  induction fuel using Nat.strong_induction_on with
  | _ fuel ih =>
    intro n hn
    match fuel with
    | 0 => omega
    | f + 1 =>
      show natReprF (f + 1) n = natReprF (n + 1) n
      by_cases h : n < 10
      · simp [natReprF, h]
      · simp only [natReprF, h, if_neg, if_false]
        have hd : n / 10 < n := Nat.div_lt_self (by omega) (by omega)
        rw [ih f (Nat.lt_succ_self f) (n / 10) (by omega)]
        rw [ih n hn (n / 10) hd]

theorem natRepr_unfold (n : Nat) :
    natRepr n = if n < 10 then [digitCh n] else natRepr (n / 10) ++ [digitCh (n % 10)] := by
  show natReprF (n + 1) n = _
  by_cases h : n < 10
  · simp [natReprF, h]
  · simp only [natReprF, h, if_neg, if_false]
    rw [natReprF_mono n (n / 10) (by omega)]

/-- Numeric value of a digit character. -/
def digitVal (c : Char) : Nat := c.toNat - 48

/-- Value of a decimal digit string (mirrors Python `int(s)` on digit
strings). -/
def digitsVal (l : List Char) : Nat := l.foldl (fun acc c => acc * 10 + digitVal c) 0

theorem digitsVal_append (l : List Char) (c : Char) :
    digitsVal (l ++ [c]) = digitsVal l * 10 + digitVal c := by
  unfold digitsVal
  rw [List.foldl_append]
  rfl

theorem digitVal_digitCh (n : Nat) (h : n < 10) : digitVal (digitCh n) = n := by
  unfold digitVal
  rw [toNat_digitCh, Nat.mod_eq_of_lt h]
  omega

theorem digitsVal_natRepr (n : Nat) : digitsVal (natRepr n) = n := by
  induction n using Nat.strong_induction_on with
  | _ n ih =>
    rw [natRepr_unfold]
    by_cases h : n < 10
    · simp only [h, if_pos]
      show digitsVal [digitCh n] = n
      unfold digitsVal
      simp [digitVal_digitCh n h]
    · simp only [h, if_neg, if_false]
      rw [digitsVal_append, ih (n / 10) (Nat.div_lt_self (by omega) (by omega)),
        digitVal_digitCh (n % 10) (Nat.mod_lt n (by omega))]
      omega

theorem natRepr_isDigit (n : Nat) : ∀ c ∈ natRepr n, isDigitC c := by
  induction n using Nat.strong_induction_on with
  | _ n ih =>
    rw [natRepr_unfold]
    by_cases h : n < 10
    · simp only [h, if_pos]
      intro c hc
      simp only [List.mem_singleton] at hc
      subst hc
      exact isDigitC_digitCh n
    · simp only [h, if_neg, if_false]
      intro c hc
      rcases List.mem_append.mp hc with h1 | h2
      · exact ih (n / 10) (Nat.div_lt_self (by omega) (by omega)) c h1
      · simp only [List.mem_singleton] at h2
        subst h2
        exact isDigitC_digitCh (n % 10)

theorem natRepr_ne_nil (n : Nat) : natRepr n ≠ [] := by
  rw [natRepr_unfold]
  by_cases h : n < 10 <;> simp [h]

/-- Match `pat` against the front of `s`; on success return the remainder.
This is the primitive under both Python substring tests and the token
regex. -/
def matchLead : List Char → List Char → Option (List Char)
  | [], s => some s
  | _ :: _, [] => none
  | p :: ps, c :: cs => if c = p then matchLead ps cs else none

/-- Whether `pat` occurs at the front of `s`. -/
def hasLead (pat s : List Char) : Bool := (matchLead pat s).isSome

/-- Python `pat in s` substring test. -/
def isSub (pat : List Char) : List Char → Bool
  | [] => pat.isEmpty
  | c :: cs => hasLead pat (c :: cs) || isSub pat cs

theorem matchLead_eq_append {p s r : List Char} (h : matchLead p s = some r) :
    s = p ++ r := by
  induction p generalizing s with
  | nil => simpa [matchLead] using h
  | cons x xs ih =>
    cases s with
    | nil => simp [matchLead] at h
    | cons c cs =>
      by_cases hc : c = x
      · simp only [matchLead, hc, if_pos rfl] at h
        simp [hc, ih h]
      · simp [matchLead, hc] at h

theorem matchLead_self_append (p x : List Char) : matchLead p (p ++ x) = some x := by
  induction p with
  | nil => rfl
  | cons c cs ih => simp [matchLead, ih]

theorem matchLead_append_some {p s r : List Char} (h : matchLead p s = some r)
    (v : List Char) : matchLead p (s ++ v) = some (r ++ v) := by
  rw [matchLead_eq_append h, List.append_assoc]
  exact matchLead_self_append p (r ++ v)

theorem matchLead_none_append {p s : List Char} (hp : ∀ x ∈ p, x ≠ '\n')
    (h : matchLead p s = none) (v : List Char) :
    matchLead p (s ++ '\n' :: v) = none := by
  induction p generalizing s with
  | nil => simp [matchLead] at h
  | cons x xs ih =>
    cases s with
    | nil =>
      have hx : x ≠ '\n' := hp x (List.mem_cons_self x xs)
      simp only [List.nil_append, matchLead]
      rw [if_neg (fun hEq => hx hEq.symm)]
    | cons c cs =>
      by_cases hc : c = x
      · simp only [matchLead, hc, if_pos rfl] at h
        simpa [matchLead, hc] using
          ih (fun y hy => hp y (List.mem_cons_of_mem x hy)) h
      · simp [matchLead, hc]

/-- The literal run `((image_` that opens a placeholder token
(`re.split(r'\{\{image_(\d+)\}\}', ...)` in `_fill_content_dom`). -/
def tokOpen : List Char := [lbrace, lbrace, 'i', 'm', 'a', 'g', 'e', '_']

/-- The literal `))` that closes a placeholder token. -/
def tokClose : List Char := [rbrace, rbrace]

/-- The canonical placeholder token for image index `k`. -/
def canonTok (k : Nat) : List Char := tokOpen ++ natRepr k ++ tokClose

/-- Try to read one full `((image_<digits>))` token at the front of `s`;
return its numeric index and the rest of `s`.  Greedy on digits, exactly as
`\d+` is. -/
def tryTok (s : List Char) : Option (Nat × List Char) :=
  match matchLead tokOpen s with
  | none => none
  | some r1 =>
    if (r1.takeWhile isDigitC).isEmpty then none
    else
      match matchLead tokClose (r1.dropWhile isDigitC) with
      | none => none
      | some r2 => some (digitsVal (r1.takeWhile isDigitC), r2)

theorem tryTok_length {s : List Char} {n : Nat} {r : List Char}
    (h : tryTok s = some (n, r)) : r.length < s.length := by
  unfold tryTok at h
  cases h1 : matchLead tokOpen s with
  | none => simp [h1] at h
  | some r1 =>
    rw [h1] at h
    simp only at h
    by_cases hds : (r1.takeWhile isDigitC).isEmpty
    · simp [hds] at h
    · simp only [hds, if_neg, Bool.false_eq_true, not_false_iff] at h
      cases h2 : matchLead tokClose (r1.dropWhile isDigitC) with
      | none => simp [h2] at h
      | some r2 =>
        rw [h2] at h
        simp only [Option.some.injEq, Prod.mk.injEq] at h
        have hs : s = tokOpen ++ r1 := matchLead_eq_append h1
        have hr1 : r1.dropWhile isDigitC = tokClose ++ r2 := matchLead_eq_append h2
        have hlen1 : r1.length = (r1.takeWhile isDigitC).length + (r1.dropWhile isDigitC).length := by
          conv_lhs => rw [← List.takeWhile_append_dropWhile isDigitC r1]
          rw [List.length_append]
        have hne : (r1.takeWhile isDigitC).length ≠ 0 := by
          intro h0
          exact hds (by simpa [List.isEmpty_iff, List.length_eq_zero] using h0)
        rw [← h.2]
        rw [hs, List.length_append, hlen1, hr1, List.length_append]
        simp only [tokOpen, tokClose, List.length_cons]
        omega

theorem takeWhile_append_stop (p : Char → Bool) {l : List Char} (c : Char)
    (hl : ∀ x ∈ l, p x) (hc : ¬ p c) (v : List Char) :
    (l ++ c :: v).takeWhile p = l ∧ (l ++ c :: v).dropWhile p = c :: v := by
  induction l with
  | nil =>
    simp only [List.nil_append, List.takeWhile_cons, List.dropWhile_cons]
    simp [hc]
  | cons x xs ih =>
    have hx : p x := hl x (List.mem_cons_self x xs)
    have ih2 := ih (fun y hy => hl y (List.mem_cons_of_mem x hy))
    simp only [List.cons_append, List.takeWhile_cons, List.dropWhile_cons, hx]
    simp [ih2.1, ih2.2]

theorem takeWhile_append_mid {p : Char → Bool} {l : List Char} {d : Char}
    {t : List Char} (h : List.dropWhile p l = d :: t) (w : List Char) :
    (l ++ w).takeWhile p = l.takeWhile p ∧ (l ++ w).dropWhile p = d :: (t ++ w) := by
  induction l with
  | nil => simp [List.dropWhile] at h
  | cons x xs ih =>
    by_cases hx : p x
    · simp only [List.dropWhile_cons, hx, if_pos] at h
      have ih2 := ih h
      simp only [List.cons_append, List.takeWhile_cons, List.dropWhile_cons, hx]
      simp [ih2.1, ih2.2]
    · simp only [List.dropWhile_cons, hx, Bool.false_eq_true, if_neg, if_false,
        not_false_iff] at h
      cases h
      simp only [List.cons_append, List.takeWhile_cons, List.dropWhile_cons, hx]
      simp

theorem tryTok_append_some {s : List Char} {n : Nat} {r : List Char}
    (h : tryTok s = some (n, r)) (v : List Char) :
    tryTok (s ++ v) = some (n, r ++ v) := by
  unfold tryTok at h ⊢
  cases h1 : matchLead tokOpen s with
  | none => simp [h1] at h
  | some r1 =>
    rw [h1] at h
    simp only at h
    by_cases hds : (r1.takeWhile isDigitC).isEmpty
    · simp [hds] at h
    · simp only [hds, Bool.false_eq_true, if_neg, not_false_iff] at h
      cases h2 : matchLead tokClose (r1.dropWhile isDigitC) with
      | none => simp [h2] at h
      | some r2 =>
        rw [h2] at h
        simp only [Option.some.injEq, Prod.mk.injEq] at h
        rw [matchLead_append_some h1 v]
        have hdrop : r1.dropWhile isDigitC = rbrace :: (rbrace :: r2) := by
          simpa [tokClose] using matchLead_eq_append h2
        have hmid := takeWhile_append_mid hdrop v
        simp only [List.cons_append] at hmid
        simp only [hmid.1, hmid.2]
        rw [if_neg (by simpa using hds)]
        rw [show rbrace :: (rbrace :: (r2 ++ v)) = tokClose ++ (r2 ++ v) from rfl]
        rw [matchLead_self_append tokClose (r2 ++ v)]
        simp [h.1, h.2]

theorem tryTok_none_append {s : List Char} (h : tryTok s = none) (v : List Char) :
    tryTok (s ++ '\n' :: v) = none := by
  unfold tryTok at h ⊢
  cases h1 : matchLead tokOpen s with
  | none =>
    rw [matchLead_none_append (by decide) h1 v]
  | some r1 =>
    rw [h1] at h
    simp only at h
    rw [matchLead_append_some h1 ('\n' :: v)]
    by_cases hds : (r1.takeWhile isDigitC).isEmpty
    · have hds2 : ((r1 ++ '\n' :: v).takeWhile isDigitC).isEmpty = true := by
        cases r1 with
        | nil => simp [List.takeWhile_cons, show isDigitC '\n' = false from rfl]
        | cons x xs =>
          simp only [List.takeWhile_cons] at hds
          by_cases hx : isDigitC x
          · simp [hx] at hds
          · simp [List.takeWhile_cons, hx]
      simp only [hds2, if_pos]
    · simp only [hds, Bool.false_eq_true, if_neg, not_false_iff] at h
      cases h2 : matchLead tokClose (r1.dropWhile isDigitC) with
      | some r2 => simp [h2] at h
      | none =>
        cases hdrop : r1.dropWhile isDigitC with
        | nil =>
          have hall : ∀ x ∈ r1, isDigitC x := by
            intro x hx
            have := List.dropWhile_eq_nil_iff.mp hdrop
            exact this x hx
          have hstop := takeWhile_append_stop isDigitC '\n' hall (by decide) v
          simp only [hstop.1, hstop.2]
          have htw : r1.takeWhile isDigitC = r1 := by
            conv_rhs => rw [← List.takeWhile_append_dropWhile isDigitC r1, hdrop]
            simp
          rw [htw] at hds
          rw [if_neg (by simpa using hds)]
          rw [show matchLead tokClose ('\n' :: v) = none from by
            simp only [tokClose, matchLead]
            rw [if_neg (by decide)]]
        | cons d t =>
          have hmid := takeWhile_append_mid hdrop ('\n' :: v)
          simp only [hmid.1, hmid.2]
          rw [if_neg (by simpa using hds)]
          rw [hdrop] at h2
          rw [show d :: (t ++ '\n' :: v) = (d :: t) ++ '\n' :: v from rfl]
          rw [matchLead_none_append (by decide) h2 v]

/-- Fuelled left-to-right scan for placeholder tokens: the sequence of
captured indices of `re.finditer`/`re.split` over `\{\{image_(\d+)\}\}`. -/
def scanF : Nat → List Char → List Nat
  | 0, _ => []
  | _ + 1, [] => []
  | fuel + 1, c :: cs =>
    match tryTok (c :: cs) with
    | some (n, r) => n :: scanF fuel r
    | none => scanF fuel cs

/-- The ordered list of token indices occurring in `s`. -/
def scanTokens (s : List Char) : List Nat := scanF s.length s

theorem scanF_mono : ∀ fuel (s : List Char), s.length ≤ fuel →
    scanF fuel s = scanTokens s := by
  intro fuel
  induction fuel using Nat.strong_induction_on with
  | _ fuel ih =>
    intro s hs
    match fuel, s with
    | 0, s =>
      have : s = [] := List.length_eq_zero.mp (Nat.le_antisymm hs (Nat.zero_le _))
      subst this
      rfl
    | fuel + 1, [] => rfl
    | fuel + 1, c :: cs =>
      show scanF (fuel + 1) (c :: cs) = scanF (cs.length + 1) (c :: cs)
      simp only [scanF]
      cases htr : tryTok (c :: cs) with
      | some nr =>
        obtain ⟨n, r⟩ := nr
        have hr : r.length < cs.length + 1 := tryTok_length htr
        have h1 : scanF fuel r = scanTokens r := by
          apply ih fuel (Nat.lt_succ_self fuel) r
          simp only [List.length_cons] at hs
          omega
        have h2 : scanF cs.length r = scanTokens r := by
          apply ih cs.length _ r (by omega)
          simp only [List.length_cons] at hs
          omega
        show n :: scanF fuel r = n :: scanF cs.length r
        rw [h1, h2]
      | none =>
        have h1 : scanF fuel cs = scanTokens cs := by
          apply ih fuel (Nat.lt_succ_self fuel) cs
          simp only [List.length_cons] at hs
          omega
        show scanF fuel cs = scanF cs.length cs
        rw [h1]
        rfl

theorem scanTokens_cons_some {c : Char} {cs : List Char} {n : Nat} {r : List Char}
    (h : tryTok (c :: cs) = some (n, r)) :
    scanTokens (c :: cs) = n :: scanTokens r := by
  show scanF (cs.length + 1) (c :: cs) = _
  simp only [scanF, h]
  rw [scanF_mono cs.length r (by have := tryTok_length h; simp at this; omega)]

theorem scanTokens_cons_none {c : Char} {cs : List Char}
    (h : tryTok (c :: cs) = none) : scanTokens (c :: cs) = scanTokens cs := by
  show scanF (cs.length + 1) (c :: cs) = _
  simp only [scanF, h]
  rfl

theorem tryTok_nl_cons (v : List Char) : tryTok ('\n' :: v) = none := by
  unfold tryTok
  rw [show matchLead tokOpen ('\n' :: v) = none from by
    simp only [tokOpen, matchLead]
    rw [if_neg (by decide)]]

theorem scanTokens_seam : ∀ (a b : List Char),
    scanTokens (a ++ '\n' :: b) = scanTokens a ++ scanTokens b := by
  have H : ∀ fuel (a : List Char), a.length ≤ fuel → ∀ b,
      scanTokens (a ++ '\n' :: b) = scanTokens a ++ scanTokens b := by
    intro fuel
    induction fuel with
    | zero =>
      intro a ha b
      have : a = [] := List.length_eq_zero.mp (Nat.le_antisymm ha (Nat.zero_le _))
      subst this
      simp only [List.nil_append]
      rw [scanTokens_cons_none (tryTok_nl_cons b)]
      rfl
    | succ fuel ih =>
      intro a ha b
      cases a with
      | nil =>
        simp only [List.nil_append]
        rw [scanTokens_cons_none (tryTok_nl_cons b)]
        rfl
      | cons c cs =>
        cases htr : tryTok (c :: cs) with
        | some nr =>
          obtain ⟨n, r⟩ := nr
          have h2 : tryTok ((c :: cs) ++ '\n' :: b) = some (n, r ++ '\n' :: b) :=
            tryTok_append_some htr ('\n' :: b)
          rw [show (c :: cs) ++ '\n' :: b = c :: (cs ++ '\n' :: b) from rfl] at h2
          rw [show (c :: cs) ++ '\n' :: b = c :: (cs ++ '\n' :: b) from rfl]
          rw [scanTokens_cons_some h2]
          have hr : r.length ≤ fuel := by
            have := tryTok_length htr
            simp only [List.length_cons] at this ha
            omega
          rw [ih r hr b, scanTokens_cons_some htr]
          rfl
        | none =>
          have h2 : tryTok ((c :: cs) ++ '\n' :: b) = none := tryTok_none_append htr b
          rw [show (c :: cs) ++ '\n' :: b = c :: (cs ++ '\n' :: b) from rfl] at h2
          rw [show (c :: cs) ++ '\n' :: b = c :: (cs ++ '\n' :: b) from rfl]
          rw [scanTokens_cons_none h2]
          have hcs : cs.length ≤ fuel := by
            simp only [List.length_cons] at ha
            omega
          rw [ih cs hcs b, scanTokens_cons_none htr]
  intro a b
  exact H a.length a (Nat.le_refl _) b

/-- The paragraph separator: a blank line. -/
def parSep : List Char := ['\n', '\n']

/-- Python `'\n\n'.join(ps)`. -/
def joinSep : List (List Char) → List Char
  | [] => []
  | [p] => p
  | p :: q :: rest => p ++ parSep ++ joinSep (q :: rest)

/-- Python `s.split('\n\n')`: leftmost, non-overlapping. -/
def splitPars : List Char → List (List Char)
  | [] => [[]]
  | [c] => [[c]]
  | c :: d :: rest =>
    if c = '\n' ∧ d = '\n' then [] :: splitPars rest
    else
      match splitPars (d :: rest) with
      | [] => [[c]]
      | p :: ps => (c :: p) :: ps

theorem splitPars_ne_nil (s : List Char) : splitPars s ≠ [] := by
  match s with
  | [] => simp [splitPars]
  | [c] => simp [splitPars]
  | c :: d :: rest =>
    by_cases h : c = '\n' ∧ d = '\n'
    · simp [splitPars, h]
    · simp only [splitPars, h, if_neg, if_false]
      cases splitPars (d :: rest) <;> simp


theorem joinSep_splitPars (s : List Char) : joinSep (splitPars s) = s := by
  have H : ∀ n (s : List Char), s.length ≤ n → joinSep (splitPars s) = s := by
    intro n
    induction n with
    | zero =>
      intro s hs
      have : s = [] := List.length_eq_zero.mp (Nat.le_antisymm hs (Nat.zero_le _))
      subst this
      rfl
    | succ n ih =>
      intro s hs
      match s with
      | [] => rfl
      | [c] => rfl
      | c :: d :: rest =>
        by_cases h : c = '\n' ∧ d = '\n'
        · obtain ⟨hc, hd⟩ := h
          subst hc
          subst hd
          rw [show splitPars ('\n' :: '\n' :: rest) = [] :: splitPars rest from by
            simp [splitPars]]
          cases hsp : splitPars rest with
          | nil => exact absurd hsp (splitPars_ne_nil rest)
          | cons p ps =>
            have ihr : joinSep (splitPars rest) = rest := by
              apply ih rest
              simp only [List.length_cons] at hs
              omega
            rw [hsp] at ihr
            show joinSep ([] :: p :: ps) = _
            simp only [joinSep, List.nil_append]
            rw [ihr]
            rfl
        · rw [show splitPars (c :: d :: rest) = (match splitPars (d :: rest) with
            | [] => [[c]]
            | p :: ps => (c :: p) :: ps) from by
              rw [show splitPars (c :: d :: rest) =
                (if c = '\n' ∧ d = '\n' then [] :: splitPars rest
                 else match splitPars (d :: rest) with
                 | [] => [[c]]
                 | p :: ps => (c :: p) :: ps) from rfl]
              rw [if_neg h]]
          cases hsp : splitPars (d :: rest) with
          | nil => exact absurd hsp (splitPars_ne_nil (d :: rest))
          | cons p ps =>
            have ihr : joinSep (p :: ps) = d :: rest := by
              have h2 : joinSep (splitPars (d :: rest)) = d :: rest := by
                apply ih (d :: rest)
                simp only [List.length_cons] at hs ⊢
                omega
              rwa [hsp] at h2
            cases ps with
            | nil =>
              show joinSep [c :: p] = _
              simp only [joinSep] at ihr ⊢
              rw [ihr]
            | cons q qs =>
              show joinSep ((c :: p) :: q :: qs) = _
              simp only [joinSep] at ihr ⊢
              rw [show (c :: p) ++ parSep ++ joinSep (q :: qs) =
                c :: (p ++ parSep ++ joinSep (q :: qs)) from by simp]
              rw [ihr]
  exact H s.length s (Nat.le_refl _)

theorem scanTokens_sep_append (x y : List Char) :
    scanTokens (x ++ parSep ++ y) = scanTokens x ++ scanTokens y := by
  rw [show x ++ parSep ++ y = x ++ '\n' :: ('\n' :: y) from by simp [parSep]]
  rw [scanTokens_seam x ('\n' :: y), scanTokens_cons_none (tryTok_nl_cons y)]

theorem scanTokens_joinSep (ps : List (List Char)) :
    scanTokens (joinSep ps) = (ps.map scanTokens).flatten := by
  induction ps with
  | nil => rfl
  | cons p qs ih =>
    cases qs with
    | nil => simp [joinSep]
    | cons q rest =>
      show scanTokens (p ++ parSep ++ joinSep (q :: rest)) = _
      rw [scanTokens_sep_append p (joinSep (q :: rest)), ih]
      simp

theorem tryTok_canonTok (k : Nat) (v : List Char) :
    tryTok (canonTok k ++ v) = some (k, v) := by
  have h1 : matchLead tokOpen (canonTok k ++ v) = some (natRepr k ++ rbrace :: (rbrace :: v)) := by
    rw [show canonTok k ++ v = tokOpen ++ (natRepr k ++ rbrace :: (rbrace :: v)) from by
      simp [canonTok, tokClose]]
    exact matchLead_self_append _ _
  unfold tryTok
  rw [h1]
  simp only
  have hstop := takeWhile_append_stop isDigitC rbrace (natRepr_isDigit k) (by decide)
    (rbrace :: v)
  rw [hstop.1, hstop.2]
  rw [if_neg (by simpa [List.isEmpty_iff] using natRepr_ne_nil k)]
  rw [show rbrace :: (rbrace :: v) = tokClose ++ v from rfl]
  rw [matchLead_self_append tokClose v]
  simp [digitsVal_natRepr k]

theorem scanTokens_canonTok (k : Nat) : scanTokens (canonTok k) = [k] := by
  have h := tryTok_canonTok k []
  rw [List.append_nil] at h
  rw [show canonTok k = lbrace :: (lbrace :: ('i' :: ('m' :: ('a' :: ('g' :: ('e' :: ('_' ::
    (natRepr k ++ tokClose)))))))) from by simp [canonTok, tokOpen]] at h ⊢
  rw [scanTokens_cons_some h]
  rfl

theorem scanTokens_par_insert (p : List Char) (k : Nat) :
    scanTokens (p ++ parSep ++ canonTok k) = scanTokens p ++ [k] := by
  rw [scanTokens_sep_append p (canonTok k), scanTokens_canonTok k]

/-- The single-brace variant `(image_k)` recognised (only) by the presence
check of `_ensure_image_placeholders`. -/
def braceTok (k : Nat) : List Char := lbrace :: ('i' :: ('m' :: ('a' :: ('g' :: ('e' :: ('_' ::
  (natRepr k ++ [rbrace])))))))

/-- The `[[image_k]]` variant recognised by the presence check. -/
def dblSqTok (k : Nat) : List Char := '[' :: ('[' :: ('i' :: ('m' :: ('a' :: ('g' :: ('e' :: ('_' ::
  (natRepr k ++ [']', ']']))))))))

/-- The `[image_k]` variant recognised by the presence check. -/
def sqTok (k : Nat) : List Char := '[' :: ('i' :: ('m' :: ('a' :: ('g' :: ('e' :: ('_' ::
  (natRepr k ++ [']'])))))))

/-- Presence check of `_ensure_image_placeholders` (gemini_client.py,
lines 126-138): index `i` counts as present when any of the four textual
placeholder formats occurs in `content`. -/
def detected (i : Nat) (content : List Char) : Bool :=
  isSub (canonTok i) content || isSub (braceTok i) content ||
    isSub (dblSqTok i) content || isSub (sqTok i) content

/-- The indices `1..image_count` whose placeholder is missing from
`content` (gemini_client.py, line 141). -/
def missingIdx (content : List Char) (imageCount : Nat) : List Nat :=
  (List.range' 1 imageCount).filter (fun i => ¬ detected i content)

/-- One step of the placeholder-insertion loop (gemini_client.py, lines
155-163): append `\n\n{{image_k}}` to the paragraph at the computed evenly
distributed position. -/
def insertStep (missCount : Nat) (ps : List (List Char)) (ik : Nat × Nat) : List (List Char) :=
  let pos := min ((ik.1 + 1) * ps.length / (missCount + 1)) (ps.length - 1)
  ps.set pos (ps.getD pos [] ++ parSep ++ canonTok ik.2)

/-- `_ensure_image_placeholders(content, image_count)` (gemini_client.py,
lines 110-171): add a canonical `((image_k))` placeholder for every index
1..image_count whose placeholder is missing, distributed across paragraph
breaks when there are several paragraphs, else appended at the end.
Present placeholders (and any duplicate or out-of-range tokens) are left
untouched. -/
def ensureImagePlaceholders (content : List Char) (imageCount : Nat) : List Char :=
  if imageCount = 0 then content
  else
    let missing := missingIdx content imageCount
    if missing.isEmpty then content
    else
      let pars := splitPars content
      if 1 < pars.length then
        joinSep (missing.enum.foldl (insertStep missing.length) pars)
      else
        content ++ parSep ++ joinSep (missing.map canonTok)

/-- A content segment produced by `re.split(r'\{\{image_(\d+)\}\}', body)`
in `_fill_content_dom`: literal text, or a captured image index. -/
inductive Seg where
  | txt (t : List Char)
  | img (k : Nat)
deriving DecidableEq

/-- Fuelled segment splitter mirroring `re.split` with one capture group:
text pieces alternate with captured indices, starting and ending with a
text piece. -/
def segF : Nat → List Char → List Seg
  | 0, _ => [Seg.txt []]
  | _ + 1, [] => [Seg.txt []]
  | fuel + 1, c :: cs =>
    match tryTok (c :: cs) with
    | some (n, r) => Seg.txt [] :: Seg.img n :: segF fuel r
    | none =>
      match segF fuel cs with
      | Seg.txt t :: rest => Seg.txt (c :: t) :: rest
      | rest => Seg.txt [c] :: rest

/-- `re.split(r'\{\{image_(\d+)\}\}', content)` as a segment list. -/
def splitSeg (s : List Char) : List Seg := segF s.length s

/-- Image index of a segment, if any. -/
def segIdx : Seg → Option Nat
  | Seg.txt _ => none
  | Seg.img k => some k

theorem segF_shape (fuel : Nat) (s : List Char) :
    ∃ t rest, segF fuel s = Seg.txt t :: rest := by
  match fuel, s with
  | 0, s => exact ⟨[], [], rfl⟩
  | fuel + 1, [] => exact ⟨[], [], rfl⟩
  | fuel + 1, c :: cs =>
    show ∃ t rest, (match tryTok (c :: cs) with
      | some (n, r) => Seg.txt [] :: Seg.img n :: segF fuel r
      | none =>
        match segF fuel cs with
        | Seg.txt t :: rest => Seg.txt (c :: t) :: rest
        | rest => Seg.txt [c] :: rest) = Seg.txt t :: rest
    cases htr : tryTok (c :: cs) with
    | some nr => exact ⟨[], Seg.img nr.1 :: segF fuel nr.2, by simp⟩
    | none =>
      obtain ⟨t, rest, ht⟩ := segF_shape fuel cs
      rw [ht]
      exact ⟨c :: t, rest, rfl⟩

theorem segF_mono : ∀ fuel (s : List Char), s.length ≤ fuel → segF fuel s = splitSeg s := by
  intro fuel
  induction fuel using Nat.strong_induction_on with
  | _ fuel ih =>
    intro s hs
    match fuel, s with
    | 0, s =>
      have : s = [] := List.length_eq_zero.mp (Nat.le_antisymm hs (Nat.zero_le _))
      subst this
      rfl
    | fuel + 1, [] => rfl
    | fuel + 1, c :: cs =>
      show segF (fuel + 1) (c :: cs) = segF (cs.length + 1) (c :: cs)
      simp only [segF]
      cases htr : tryTok (c :: cs) with
      | some nr =>
        obtain ⟨n, r⟩ := nr
        have hr : r.length < cs.length + 1 := tryTok_length htr
        have h1 : segF fuel r = splitSeg r := by
          apply ih fuel (Nat.lt_succ_self fuel) r
          simp only [List.length_cons] at hs
          omega
        have h2 : segF cs.length r = splitSeg r := by
          apply ih cs.length _ r (by omega)
          simp only [List.length_cons] at hs
          omega
        show Seg.txt [] :: Seg.img n :: segF fuel r = Seg.txt [] :: Seg.img n :: segF cs.length r
        rw [h1, h2]
      | none =>
        have h1 : segF fuel cs = splitSeg cs := by
          apply ih fuel (Nat.lt_succ_self fuel) cs
          simp only [List.length_cons] at hs
          omega
        have h2 : segF cs.length cs = splitSeg cs := rfl
        rw [h1, h2]

theorem splitSeg_cons_some {c : Char} {cs : List Char} {n : Nat} {r : List Char}
    (h : tryTok (c :: cs) = some (n, r)) :
    splitSeg (c :: cs) = Seg.txt [] :: Seg.img n :: splitSeg r := by
  show segF (cs.length + 1) (c :: cs) = _
  simp only [segF, h]
  rw [segF_mono cs.length r (by have := tryTok_length h; simp at this; omega)]

theorem splitSeg_cons_none {c : Char} {cs : List Char}
    (h : tryTok (c :: cs) = none) :
    splitSeg (c :: cs) = match splitSeg cs with
      | Seg.txt t :: rest => Seg.txt (c :: t) :: rest
      | rest => Seg.txt [c] :: rest := by
  show segF (cs.length + 1) (c :: cs) = _
  simp only [segF, h]
  rfl

/-- The captured indices of the segment split are exactly the scanned token
indices, in order. -/
theorem splitSeg_filterMap (s : List Char) :
    (splitSeg s).filterMap segIdx = scanTokens s := by
  have H : ∀ n (s : List Char), s.length ≤ n →
      (splitSeg s).filterMap segIdx = scanTokens s := by
    intro n
    induction n with
    | zero =>
      intro s hs
      have : s = [] := List.length_eq_zero.mp (Nat.le_antisymm hs (Nat.zero_le _))
      subst this
      rfl
    | succ n ih =>
      intro s hs
      match s with
      | [] => rfl
      | c :: cs =>
        cases htr : tryTok (c :: cs) with
        | some nr =>
          obtain ⟨k, r⟩ := nr
          rw [splitSeg_cons_some htr, scanTokens_cons_some htr]
          simp only [List.filterMap_cons, segIdx]
          have hr : r.length ≤ n := by
            have := tryTok_length htr
            simp only [List.length_cons] at this hs
            omega
          rw [ih r hr]
        | none =>
          rw [splitSeg_cons_none htr, scanTokens_cons_none htr]
          have hcs : cs.length ≤ n := by
            simp only [List.length_cons] at hs
            omega
          have hshape := segF_shape cs.length cs
          obtain ⟨t, rest, ht⟩ := hshape
          have ht2 : splitSeg cs = Seg.txt t :: rest := ht
          rw [ht2]
          show (Seg.txt (c :: t) :: rest).filterMap segIdx = scanTokens cs
          rw [← ih cs hcs, ht2]
          simp [List.filterMap_cons, segIdx]
  exact H s.length s (Nat.le_refl _)

/-- An observable action of the `_fill_content_dom` loop
(salon_board_client.py, lines 772-808). -/
inductive FillAct where
  | appendText (t : List Char)
  | mkAnchor (k : Nat)
  | upload (path : String)
  | moveToAnchor (k : Nat)
deriving DecidableEq

/-- Actions performed for one segment: a text part is appended only when
`part.strip()` is truthy; a captured index `k` leads to
anchor/upload/move only under the guard `0 <= int(part) - 1 <
len(image_paths)`, and is skipped entirely otherwise (lines 784-785), so the
list access `image_paths[image_index]` is always in bounds. -/
def segActions (images : List String) : Seg → List FillAct
  | Seg.txt t =>
    if t.any (fun c => ¬ isPyWs c) then [FillAct.appendText t] else []
  | Seg.img k =>
    if 1 ≤ k ∧ k ≤ images.length then
      [FillAct.mkAnchor k, FillAct.upload (images.getD (k - 1) ""), FillAct.moveToAnchor k]
    else []

/-- The full ordered action trace of `_fill_content_dom(content, images)`
on its happy path (no browser failure). -/
def fillDomActions (content : List Char) (images : List String) : List FillAct :=
  ((splitSeg content).map (segActions images)).flatten

/-- The image-file argument of an upload action. -/
def uploadOf : FillAct → Option String
  | FillAct.upload p => some p
  | _ => none

/-- The index of an anchor-creation action. -/
def anchorOf : FillAct → Option Nat
  | FillAct.mkAnchor k => some k
  | _ => none

/-- The ordered list of files passed to `_upload_single_image` during the
DOM fill. -/
def fillUploads (content : List Char) (images : List String) : List String :=
  (fillDomActions content images).filterMap uploadOf

/-- The ordered list of anchor indices created during the DOM fill. -/
def fillAnchors (content : List Char) (images : List String) : List Nat :=
  (fillDomActions content images).filterMap anchorOf

theorem fillUploads_eq (content : List Char) (images : List String) :
    fillUploads content images = (scanTokens content).filterMap
      (fun k => if 1 ≤ k ∧ k ≤ images.length then some (images.getD (k - 1) "") else none) := by
  unfold fillUploads fillDomActions
  rw [← splitSeg_filterMap]
  induction splitSeg content with
  | nil => rfl
  | cons sg rest ih =>
    cases sg with
    | txt t =>
      by_cases ht : t.any (fun c => ¬ isPyWs c)
      · simp only [List.map_cons, List.flatten_cons, segActions, ht, if_pos,
          List.filterMap_cons, List.filterMap_append]
        simpa [uploadOf, segIdx] using ih
      · simp only [List.map_cons, List.flatten_cons, segActions, ht, if_neg,
          Bool.false_eq_true, not_false_iff, if_false, List.filterMap_cons,
          List.filterMap_append]
        simpa [segIdx] using ih
    | img k =>
      by_cases hk : 1 ≤ k ∧ k ≤ images.length
      · simp only [List.map_cons, List.flatten_cons, segActions, hk, if_pos,
          List.filterMap_cons, List.filterMap_append]
        simpa [uploadOf, segIdx, hk] using ih
      · simp only [List.map_cons, List.flatten_cons, segActions, hk, if_neg,
          not_false_iff, if_false, List.filterMap_cons, List.filterMap_append]
        simpa [segIdx, hk] using ih

theorem fillAnchors_eq (content : List Char) (images : List String) :
    fillAnchors content images = (scanTokens content).filter
      (fun k => decide (1 ≤ k ∧ k ≤ images.length)) := by
  unfold fillAnchors fillDomActions
  rw [← splitSeg_filterMap]
  induction splitSeg content with
  | nil => rfl
  | cons sg rest ih =>
    cases sg with
    | txt t =>
      by_cases ht : t.any (fun c => ¬ isPyWs c)
      · simp only [List.map_cons, List.flatten_cons, segActions, ht, if_pos,
          List.filterMap_cons, List.filterMap_append]
        simpa [anchorOf, segIdx] using ih
      · simp only [List.map_cons, List.flatten_cons, segActions, ht, if_neg,
          Bool.false_eq_true, not_false_iff, if_false, List.filterMap_cons,
          List.filterMap_append]
        simpa [segIdx] using ih
    | img k =>
      by_cases hk : 1 ≤ k ∧ k ≤ images.length
      · simp only [List.map_cons, List.flatten_cons, segActions, hk, if_pos,
          List.filterMap_cons, List.filterMap_append, List.filter_cons]
        simpa [anchorOf, segIdx, hk] using ih
      · simp only [List.map_cons, List.flatten_cons, segActions, hk, if_neg,
          not_false_iff, if_false, List.filterMap_cons, List.filterMap_append,
          List.filter_cons]
        simpa [segIdx, hk] using ih


theorem insertStep_length (m : Nat) (ps : List (List Char)) (ik : Nat × Nat) :
    (insertStep m ps ik).length = ps.length := by
  unfold insertStep
  exact List.length_set ps _ _

theorem insertStep_scan_perm (m : Nat) (ps : List (List Char)) (ik : Nat × Nat)
    (hps : ps ≠ []) :
    (((insertStep m ps ik).map scanTokens).flatten).Perm
      ((ps.map scanTokens).flatten ++ [ik.2]) := by
  unfold insertStep
  have hlen : 0 < ps.length := List.length_pos.mpr hps
  set pos := min ((ik.1 + 1) * ps.length / (m + 1)) (ps.length - 1) with hpos
  have hposlt : pos < ps.length := by
    have : pos ≤ ps.length - 1 := min_le_right _ _
    omega
  have hset : ps.set pos (ps.getD pos [] ++ parSep ++ canonTok ik.2) =
      ps.take pos ++ (ps.getD pos [] ++ parSep ++ canonTok ik.2) :: ps.drop (pos + 1) := by
    rw [List.set_eq_take_append_cons_drop, if_pos hposlt]
  have hsplit : ps = ps.take pos ++ ps.getD pos [] :: ps.drop (pos + 1) := by
    conv_lhs => rw [← List.take_append_drop pos ps]
    congr 1
    rw [List.getD_eq_getElem ps [] hposlt]
    exact (List.getElem_cons_drop ps pos hposlt).symm
  rw [hset]
  conv_rhs => rw [hsplit]
  simp only [List.map_append, List.map_cons, List.flatten_append, List.flatten_cons]
  rw [scanTokens_sep_append (ps.getD pos []) (canonTok ik.2), scanTokens_canonTok ik.2]
  simp only [List.append_assoc]
  exact List.Perm.append_left _ (List.Perm.append_left _ List.perm_append_comm)

theorem foldl_insert_scan_perm (m : Nat) :
    ∀ (l : List (Nat × Nat)) (ps : List (List Char)), ps ≠ [] →
      (((l.foldl (insertStep m) ps).map scanTokens).flatten).Perm
        ((ps.map scanTokens).flatten ++ l.map Prod.snd) := by
  intro l
  induction l with
  | nil => intro ps hps; simp
  | cons ik rest ih =>
    intro ps hps
    have hne : insertStep m ps ik ≠ [] := by
      intro h0
      have := insertStep_length m ps ik
      rw [h0] at this
      exact hps (List.length_eq_zero.mp this.symm)
    have h1 := ih (insertStep m ps ik) hne
    have h2 := insertStep_scan_perm m ps ik hps
    have h3 : ((insertStep m ps ik).map scanTokens).flatten ++ rest.map Prod.snd
        |>.Perm (((ps.map scanTokens).flatten ++ [ik.2]) ++ rest.map Prod.snd) :=
      h2.append_right _
    show (((rest.foldl (insertStep m) (insertStep m ps ik)).map scanTokens).flatten).Perm _
    refine h1.trans (h3.trans ?_)
    rw [List.append_assoc]
    rfl

theorem flatten_singletons (l : List Nat) : (l.map (fun k => [k])).flatten = l := by
  induction l with
  | nil => rfl
  | cons x xs ih => simp [ih]

/-- Token accounting for `_ensure_image_placeholders`: the multiset of
placeholder indices after the repair is the original multiset plus one
occurrence of every index the presence check reported missing. -/
theorem ensure_scan_count (content : List Char) (N i : Nat) :
    List.count i (scanTokens (ensureImagePlaceholders content N)) =
      List.count i (scanTokens content) + List.count i (missingIdx content N) := by
  unfold ensureImagePlaceholders
  by_cases h0 : N = 0
  · subst h0
    simp [missingIdx]
  · rw [if_neg h0]
    by_cases hm : (missingIdx content N).isEmpty
    · have hnil : missingIdx content N = [] := List.isEmpty_iff.mp hm
      simp [hm, hnil]
    · simp only [hm, Bool.false_eq_true, if_neg, not_false_iff, if_false]
      by_cases hp : 1 < (splitPars content).length
      · rw [if_pos hp]
        rw [scanTokens_joinSep]
        have hperm := foldl_insert_scan_perm (missingIdx content N).length
          (missingIdx content N).enum (splitPars content) (splitPars_ne_nil content)
        rw [hperm.count_eq i, List.count_append]
        have hsp : ((splitPars content).map scanTokens).flatten = scanTokens content := by
          rw [← scanTokens_joinSep, joinSep_splitPars]
        rw [hsp, List.enum_map_snd]
      · rw [if_neg hp]
        rw [scanTokens_sep_append, scanTokens_joinSep, List.map_map]
        have hmap : (missingIdx content N).map (scanTokens ∘ canonTok) =
            (missingIdx content N).map (fun k => [k]) := by
          apply List.map_congr_left
          intro a _
          exact scanTokens_canonTok a
        rw [hmap, flatten_singletons, List.count_append]

/-- Under a duplicate-free and format-faithful body, every index 1..N
occurs exactly once after the repair. -/
theorem ensure_count_eq_one (content : List Char) (N i : Nat)
    (hi : i ∈ List.range' 1 N)
    (h1 : List.count i (scanTokens content) ≤ 1)
    (h2 : detected i content = true ↔ i ∈ scanTokens content) :
    List.count i (scanTokens (ensureImagePlaceholders content N)) = 1 := by
  rw [ensure_scan_count]
  by_cases hmem : i ∈ scanTokens content
  · have hpos : 0 < List.count i (scanTokens content) := List.count_pos_iff.mpr hmem
    have hdet : detected i content = true := h2.mpr hmem
    have hmiss : List.count i (missingIdx content N) = 0 := by
      apply List.count_eq_zero_of_not_mem
      intro hmm
      have hf := List.mem_filter.mp hmm
      rw [hdet] at hf
      simpa using hf.2
    omega
  · have hz : List.count i (scanTokens content) = 0 :=
      List.count_eq_zero_of_not_mem hmem
    have hdet : detected i content = false := by
      cases hd : detected i content
      · rfl
      · exact absurd (h2.mp hd) hmem
    have hmem2 : i ∈ missingIdx content N := by
      apply List.mem_filter.mpr
      exact ⟨hi, by simp [hdet]⟩
    have hnodup : (missingIdx content N).Nodup := (List.nodup_range' 1 N).filter _
    have hone := List.count_eq_one_of_mem hnodup hmem2
    omega

/-- The punctuation class of `smart_truncate` (utils.py, line 48:
`r'[。、！？!?,.]'`). -/
def isPunctC (c : Char) : Bool :=
  c = '。' || c = '、' || c = '！' || c = '？' || c = '!' || c = '?' || c = ',' || c = '.'

/-- End position (index after) of the last punctuation match in `l`
(`list(re.finditer(...))[-1].end()` in utils.py, lines 49-59). -/
def lastPunctEnd (l : List Char) : Option Nat :=
  match (l.enum.filter (fun ic => isPunctC ic.2)).getLast? with
  | none => none
  | some ic => some (ic.1 + 1)

/-- `smart_truncate(text, max_length)` (utils.py, lines 7-81): return the
text unchanged when it fits, otherwise hard-truncate to `max_length` and
prefer cutting right after the last punctuation mark when that keeps at
least half of the target length.  The float comparison
`cut_point >= target_length * 0.5` is exact on these magnitudes and is
rendered as `max_length ≤ cut_point * 2`. -/
def smartTruncate (text : List Char) (maxLength : Nat) : List Char :=
  if text.isEmpty then []
  else if text.length ≤ maxLength then text
  else if maxLength ≤ 0 then text.take maxLength
  else
    match lastPunctEnd (text.take maxLength) with
    | some cutPoint =>
      if maxLength ≤ cutPoint * 2 then (text.take maxLength).take cutPoint
      else text.take maxLength
    | none => text.take maxLength

/-- Python `str.lower()` on the code points exercised here. -/
def pyLower (s : List Char) : List Char := s.map Char.toLower

/-- URL markers of the completion page (salon_board_client.py, lines
1554-1557). -/
def completionMarkers : List (List Char) :=
  ["/clp/bt/blog/blog/complete".data, "/blog/complete".data]

/-- URL markers of the confirmation page (lines 1558-1561). -/
def confirmMarkers : List (List Char) :=
  ["/clp/bt/blog/blog/confirm".data, "/blog/confirm".data]

/-- Success phrases looked for on the completion page (lines 1572-1582). -/
def successIndicators : List String :=
  ["ブログの登録が完了しました", "ブログの登録が完了しました。",
   "ブログ登録が完了しました", "ブログ登録が完了しました。",
   "ブログの登録が完了いたしました", "投稿しました", "公開しました",
   "登録しました", "保存しました"]

/-- `''.join(s.split())`: drop every whitespace character (line 1607). -/
def normWs (s : List Char) : List Char := s.filter (fun c => ¬ isPyWs c)

/-- Whether the lower-cased URL contains a completion marker (line 1562). -/
def isCompletionUrl (url : String) : Bool :=
  completionMarkers.any (fun m => isSub m (pyLower url.data))

/-- Whether the lower-cased URL contains a confirmation marker (line 1563). -/
def isConfirmUrl (url : String) : Bool :=
  confirmMarkers.any (fun m => isSub m (pyLower url.data))

/-- Raw phrase search over the non-empty sources `(page_content,
page_text)` (lines 1602-1603). -/
def phraseInSources (text html : String) : Bool :=
  ((if html.data.isEmpty then [] else [html.data]) ++
    (if text.data.isEmpty then [] else [text.data])).any
    (fun src => successIndicators.any (fun ind => isSub ind.data src))

/-- Whitespace-normalized phrase search over the page text (lines
1606-1609). -/
def phraseNormalized (text : String) : Bool :=
  !text.data.isEmpty &&
    successIndicators.any (fun ind => isSub (normWs ind.data) (normWs text.data))

/-- Combined phrase detection: raw sources, then normalized text, then the
xpath locator fallback (lines 1612-1621), whose outcome is an observation
of the live page and therefore an explicit input here. -/
def phraseDetected (text html : String) (locatorHit : Bool) : Bool :=
  phraseInSources text html || phraseNormalized text || locatorHit

/-- The result dictionary of `_check_publication_success`. -/
structure PubCheckResult where
  success : Bool
  url : String
  screenshotPath : String
  message : String
deriving DecidableEq

/-- `_check_publication_success` (salon_board_client.py, lines 1539-1680)
as a pure decision over (url, page text, page HTML, locator hit,
back-control presence). -/
def checkPublicationSuccess (url text html : String) (locatorHit backControl : Bool)
    (shot : String) : PubCheckResult :=
  let isCompletion := isCompletionUrl url
  let isConfirm := isConfirmUrl url
  let success := phraseDetected text html locatorHit
  let shouldTreat :=
    if success && (isCompletion || !isConfirm) then true
    else if backControl && isCompletion then true
    else false
  if shouldTreat then
    { success := true, url := url, screenshotPath := shot,
      message := "Blog post published successfully" }
  else
    { success := false, url := url, screenshotPath := shot,
      message := "Publication status unclear" }

/-- `_click_reflect_button` (salon_board_client.py, lines 1523-1537): the
selector that ends up clicked, given which controls exist on the page.
`none` means nothing was clicked. -/
def clickReflect (hasReflect hasButtonSubmit hasInputSubmit : Bool) : Option String :=
  if hasReflect then some "a#reflect"
  else if hasButtonSubmit then some "button[type=\"submit\"]"
  else if hasInputSubmit then some "input[type=\"submit\"]"
  else none

/-- Render a natural number for an f-string. -/
def natToStr (n : Nat) : String := String.mk (natRepr n)

/-- A progress-sink event as emitted by `ProgressNotifier` (progress.py):
started / progress(percent, message) / completed / failed / status-update.
Timestamps, ids and the task-group mirror events carry no claim-relevant
data and are omitted. -/
inductive Ev where
  | started (msg : String)
  | progress (pct : Nat) (msg : String)
  | completed (msg : String)
  | failed (msg : String)
  | statusUpdate (oldStatus newStatus : String)
deriving DecidableEq

/-- `send_progress` clamps the percentage to 0-100 (progress.py, line
187). -/
def sendProgress (pct : Nat) (msg : String) : Ev := Ev.progress (min pct 100) msg

/-- The typed error raised by an attempt, per the taxonomy of
salon_board_client.py. `other` covers `ElementNotFoundError`,
`UploadError`, `SALONBoardError` and unexpected exceptions, all of which
reach the final generic handler of tasks.py (line 601). -/
inductive PubErr where
  | robot (e : String)
  | login (e : String)
  | salonSel (e : String)
  | other (e : String)
deriving DecidableEq

/-- How one execution of `publish_to_salon_board_task` turns out, as
observed at its branch points (tasks.py, lines 372-647). -/
inductive PubOutcome where
  /-- `post.title`/`post.content` missing (line 377). -/
  | missingContent
  /-- The salon-board account is absent or inactive (line 410). -/
  | accountError (e : String)
  /-- `client.login` raised (after the 30 percent event, line 455). -/
  | loginPhase (err : PubErr)
  /-- `client.publish_blog_post` raised (after the 50 percent event,
  line 463). -/
  | publishPhase (err : PubErr)
  /-- The client returned an unsuccessful result dictionary, re-raised as
  `SALONBoardError(message or 'Publication failed')` (line 518). -/
  | pubUnclear (msg : Option String)
  /-- The portal reported success but persisting the local result raised
  (`publication_completed` is already true, lines 472-493). -/
  | dbFailAfterSuccess (e : String)
  /-- Publication and persistence succeeded. -/
  | success (url : String)
deriving DecidableEq

/-- The task-level result dictionary, reduced to the fields the claims
mention. -/
structure TaskResult where
  success : Bool
  error : Option String
deriving DecidableEq

/-- Everything one task execution leaves behind: the event trace, the
scheduled retry countdown (if `self.retry` was called), the final
attempt-log state, and the returned dictionary. -/
structure AttemptRes where
  events : List Ev
  retryCountdown : Option Nat
  logStatus : String
  logError : String
  result : TaskResult
deriving DecidableEq

/-- Celery's rendering of the `Retry` exception that the outer
`except Exception` handler stringifies after `self.retry(...)` is raised
(tasks.py, line 649 catching line 632). -/
def retryExcRepr (countdown : Nat) (e : String) : String :=
  "Retry in " ++ natToStr countdown ++ "s: " ++ e

/-- The f-string of the retry notification (tasks.py, lines 626-629 and
271-274). -/
def retryNoticeMsg (retries maxRetries : Nat) : String :=
  "エラーが発生しました。リトライ中... (" ++ natToStr (retries + 1) ++ "/" ++
    natToStr maxRetries ++ ")"

/-- Common context of a publish execution: the number of prepared images
(for the 15 percent message) and the post status before the run. -/
structure Ctx where
  nImages : Nat
  oldStatus : String
deriving DecidableEq

/-- The generic `except (SALONBoardError, Exception)` handler (tasks.py,
lines 601-647).  When retries remain and the portal had not already
reported success, `self.retry` schedules the next execution with countdown
`120 * (retries + 1)`; the raised `Retry` then reaches the outer
`except Exception` handler (line 649), which emits one more `failed` event
and overwrites the log error with the stringified `Retry`.  Otherwise the
handler finalizes the failure, with a distinct message when the portal had
already reported success. -/
def genericPubBranch (retries maxRetries : Nat) (completed : Bool) (e : String)
    (pre : List Ev) : AttemptRes :=
  if completed = false ∧ retries < maxRetries then
    { events := pre ++ [sendProgress 0 (retryNoticeMsg retries maxRetries),
        Ev.failed "予期せぬエラーが発生しました"],
      retryCountdown := some (120 * (retries + 1)),
      logStatus := "failed",
      logError := retryExcRepr (120 * (retries + 1)) e,
      result := { success := false, error := some (retryExcRepr (120 * (retries + 1)) e) } }
  else
    { events := pre ++ [Ev.failed (if completed then
        "SALON BOARDでは公開済みですが、アプリ側の保存に失敗しました。管理画面で公開済みかご確認ください。"
        else "SALON BOARDへの投稿に失敗しました")],
      retryCountdown := none,
      logStatus := "failed",
      logError := if completed then "SALON BOARDでは公開済みですが保存に失敗: " ++ e else e,
      result := { success := false, error := some e } }

/-- Dispatch of a typed error raised inside the `with SALONBoardClient()`
block to the four `except` handlers of tasks.py (lines 520-647). -/
def handlePubErr (retries maxRetries : Nat) (err : PubErr) (pre : List Ev) : AttemptRes :=
  match err with
  | PubErr.robot e =>
    { events := pre ++ [Ev.failed "CAPTCHA認証が検出されました。手動での対応が必要です。"],
      retryCountdown := none,
      logStatus := "failed",
      logError := "CAPTCHA検知: " ++ e,
      result := { success := false, error := some e } }
  | PubErr.login e =>
    { events := pre ++ [Ev.failed "SALON BOARDへのログインに失敗しました。認証情報を確認してください。"],
      retryCountdown := none,
      logStatus := "failed",
      logError := "ログイン失敗: " ++ e,
      result := { success := false, error := some e } }
  | PubErr.salonSel e =>
    { events := pre ++ [Ev.failed "指定されたサロンが見つかりませんでした。"],
      retryCountdown := none,
      logStatus := "failed",
      logError := "サロン選択エラー: " ++ e,
      result := { success := false, error := some e } }
  | PubErr.other e => genericPubBranch retries maxRetries false e pre

/-- One execution of `publish_to_salon_board_task` (tasks.py, lines
294-672), as a function of the retry counter `self.request.retries`, the
decorator's `max_retries`, the run context and the attempt outcome. -/
def publishAttempt (retries maxRetries : Nat) (ctx : Ctx) (o : PubOutcome) : AttemptRes :=
  let pre0 := [Ev.started "SALON BOARDへの投稿を開始しました", sendProgress 5 "準備中..."]
  let pre10 := pre0 ++ [sendProgress 10 "認証情報を確認中..."]
  let pre30 := pre10 ++
    [sendProgress 15 ("画像" ++ natToStr ctx.nImages ++ "枚を準備しました"),
     sendProgress 20 "ブラウザを起動中...",
     sendProgress 30 "SALON BOARDにログイン中..."]
  let pre50 := pre30 ++ [sendProgress 50 "ログイン成功。投稿を作成中..."]
  match o with
  | PubOutcome.missingContent =>
    { events := pre0 ++ [Ev.failed "タイトルまたは本文がありません"],
      retryCountdown := none,
      logStatus := "failed",
      logError := "Missing title or content",
      result := { success := false, error := some "Missing title or content" } }
  | PubOutcome.accountError e =>
    { events := pre10 ++ [Ev.failed "SALON BOARDアカウントの認証情報を取得できませんでした"],
      retryCountdown := none,
      logStatus := "failed",
      logError := e,
      result := { success := false, error := some e } }
  | PubOutcome.loginPhase err => handlePubErr retries maxRetries err pre30
  | PubOutcome.publishPhase err => handlePubErr retries maxRetries err pre50
  | PubOutcome.pubUnclear m =>
    genericPubBranch retries maxRetries false (m.getD "Publication failed") pre50
  | PubOutcome.dbFailAfterSuccess e => genericPubBranch retries maxRetries true e pre50
  | PubOutcome.success _ =>
    { events := pre50 ++
        [Ev.statusUpdate ctx.oldStatus "published",
         sendProgress 100 "投稿が完了しました",
         Ev.completed "SALON BOARDへの投稿が完了しました"],
      retryCountdown := none,
      logStatus := "success",
      logError := "",
      result := { success := true, error := none } }

/-- How one execution of `generate_blog_content_task` turns out (tasks.py,
lines 35-291). -/
inductive GenOutcome where
  /-- No keywords on the post (line 97). -/
  | noKeywords
  /-- `generate_blog_content_variations` raised (line 264). -/
  | genFail (e : String)
  /-- Generation and persistence succeeded. -/
  | success
deriving DecidableEq

/-- One execution of `generate_blog_content_task`: `logStatus` holds the
post status written by the run (`failed` or `selecting`). -/
def genAttempt (retries maxRetries : Nat) (oldStatus : String) (o : GenOutcome) : AttemptRes :=
  let pre0 := [Ev.started "AI記事生成を開始しました（3案作成中）", sendProgress 5 "準備中..."]
  let pre30 := pre0 ++
    [sendProgress 10 "プロンプトを準備中...",
     sendProgress 20 "Gemini AIに送信中...",
     sendProgress 30 "AIが3つの記事案を生成中... (これには数秒〜十数秒かかります)"]
  match o with
  | GenOutcome.noKeywords =>
    { events := pre0 ++ [Ev.failed "キーワードが指定されていません"],
      retryCountdown := none,
      logStatus := "failed",
      logError := "No keywords provided",
      result := { success := false, error := some "No keywords provided" } }
  | GenOutcome.genFail e =>
    if retries < maxRetries then
      { events := pre30 ++ [sendProgress 0 (retryNoticeMsg retries maxRetries),
          Ev.failed "予期せぬエラーが発生しました"],
        retryCountdown := some (60 * (retries + 1)),
        logStatus := "failed",
        logError := retryExcRepr (60 * (retries + 1)) e,
        result := { success := false, error := some (retryExcRepr (60 * (retries + 1)) e) } }
    else
      { events := pre30 ++ [Ev.failed "AI記事生成に失敗しました"],
        retryCountdown := none,
        logStatus := "failed",
        logError := e,
        result := { success := false, error := some e } }
  | GenOutcome.success =>
    { events := pre30 ++
        [sendProgress 80 "生成完了。データベースを更新中...",
         Ev.statusUpdate oldStatus "selecting",
         sendProgress 100 "3つの記事案が生成されました。選択画面に移動します。",
         Ev.completed "3つの記事案が生成されました。お好みの記事を選択してください。"],
      retryCountdown := none,
      logStatus := "selecting",
      logError := "",
      result := { success := true, error := none } }

/-- Fuelled worker loop: execute attempts while each one schedules a
retry.  Celery re-delivers the task with `retries` incremented; the fuel
only keeps the recursion structural and is taken far above any reachable
chain length. -/
def runTask (attempt : Nat → AttemptRes) : Nat → Nat → List AttemptRes
  | 0, _ => []
  | fuel + 1, r =>
    match (attempt r).retryCountdown with
    | some _ => attempt r :: runTask attempt fuel (r + 1)
    | none => [attempt r]

/-- The full chain of executions of one publish job. -/
def runPub (ctx : Ctx) (f : Nat → PubOutcome) : List AttemptRes :=
  runTask (fun r => publishAttempt r 3 ctx (f r)) 1000 0

/-- The full chain of executions of one generation job. -/
def runGen (oldStatus : String) (f : Nat → GenOutcome) : List AttemptRes :=
  runTask (fun r => genAttempt r 3 oldStatus (f r)) 1000 0

/-- Percentage of a progress event. -/
def percOf : Ev → Option Nat
  | Ev.progress pct _ => some pct
  | _ => none

/-- The percentages of the progress events of a trace, in order. -/
def percents (evs : List Ev) : List Nat := evs.filterMap percOf

/-- The fixed lead of the retry notification message. -/
def retryNoticeLead : List Char := "エラーが発生しました。リトライ中".data

/-- Whether an event is the retry notification (the `progress(0, ...)`
emitted just before `self.retry`). -/
def isRetryNotice : Ev → Bool
  | Ev.progress _ m => hasLead retryNoticeLead m.data
  | _ => false

theorem isRetryNotice_notice (r m : Nat) :
    isRetryNotice (sendProgress 0 (retryNoticeMsg r m)) = true := by
  show hasLead retryNoticeLead (retryNoticeMsg r m).data = true
  unfold retryNoticeMsg
  simp only [String.data_append, List.append_assoc]
  unfold hasLead
  have h1 : matchLead retryNoticeLead "エラーが発生しました。リトライ中... (".data =
      some "... (".data := by decide
  rw [matchLead_append_some h1]
  rfl

theorem isRetryNotice_false_of_head {pct : Nat} {m : String}
    (h : m.data.head? ≠ some 'エ') : isRetryNotice (Ev.progress pct m) = false := by
  show hasLead retryNoticeLead m.data = false
  rw [show retryNoticeLead = 'エ' :: "ラーが発生しました。リトライ中".data from by decide]
  cases hm : m.data with
  | nil => rfl
  | cons c cs =>
    rw [hm] at h
    have hc : c ≠ 'エ' := by
      intro hEq
      exact h (by rw [hEq]; rfl)
    show (matchLead ('エ' :: "ラーが発生しました。リトライ中".data) (c :: cs)).isSome = false
    simp only [matchLead]
    rw [if_neg hc]
    rfl

theorem runTask_bounded (attempt : Nat → AttemptRes) (c : Nat)
    (h : ∀ r, (attempt r).retryCountdown = if r < 3 then some (c * (r + 1)) else none) :
    ∀ fuel r, 3 - r < fuel → r ≤ 3 →
      (runTask attempt fuel r).length = 4 - r ∧
      (runTask attempt fuel r).filterMap (fun a => a.retryCountdown) =
        (List.range' r (3 - r)).map (fun k => c * (k + 1)) := by
  intro fuel
  induction fuel with
  | zero =>
    intro r h1 _
    omega
  | succ fuel ih =>
    intro r h1 h2
    by_cases hr : r < 3
    · have hc := h r
      rw [if_pos hr] at hc
      have hstep : runTask attempt (fuel + 1) r = attempt r :: runTask attempt fuel (r + 1) := by
        show (match (attempt r).retryCountdown with
          | some _ => attempt r :: runTask attempt fuel (r + 1)
          | none => [attempt r]) = _
        rw [hc]
      obtain ⟨hl, hf⟩ := ih (r + 1) (by omega) (by omega)
      constructor
      · rw [hstep]
        simp only [List.length_cons, hl]
        omega
      · rw [hstep]
        simp only [List.filterMap_cons, hc]
        rw [hf]
        rw [show 3 - r = (3 - (r + 1)) + 1 from by omega]
        rw [show List.range' r (3 - (r + 1) + 1) = r :: List.range' (r + 1) (3 - (r + 1)) from rfl]
        simp
    · have hr3 : r = 3 := by omega
      subst hr3
      have hc := h 3
      rw [if_neg (by omega)] at hc
      have hstep : runTask attempt (fuel + 1) 3 = [attempt 3] := by
        show (match (attempt 3).retryCountdown with
          | some _ => attempt 3 :: runTask attempt fuel 4
          | none => [attempt 3]) = _
        rw [hc]
      rw [hstep]
      constructor
      · rfl
      · simp [List.filterMap_cons, hc]

/-- User-id selector candidates tried by `login` (salon_board_client.py,
line 391). -/
def userSelNames : List String :=
  ["input[name='userId']", "input[name='login_id']", "input[type='text']"]

/-- Password selector candidates (line 406). -/
def pwSelNames : List String :=
  ["#jsiPwInput", "input[name='password']", "input[type='password']"]

/-- Submit-control candidates (line 424). -/
def submitSelNames : List String :=
  ["#idPasswordInputForm > div > div > a",
   "a.common-CNCcommon__primaryBtn.loginBtnSize", "button[type='submit']"]

/-- Logged-in indicators (lines 454-458); index 1 is the salon chooser. -/
def okIndNames : List String :=
  ["#globalNavi", "#biyouStoreInfoArea", "a[href*=\"logout\"]"]

/-- Explicit login-error indicators (lines 497-502). -/
def errIndNames : List String :=
  ["#errMsg", "div.errorMessage", "p.error", ".loginError"]

/-- Observations made on the live page during one `login` run.  Option
fields record which candidate selector (if any) first matched; `errText`
carries the non-empty stripped text of an explicit error element. -/
structure LoginObs where
  userSel : Option (Fin 3)
  pwSel : Option (Fin 3)
  submitSel : Option (Fin 3)
  navTimeout : Bool
  timeoutMsg : String
  url1 : String
  okInd : Option (Fin 3)
  redirectOk : Bool
  url2 : String
  okInd2 : Option (Fin 3)
  errText : Option (Fin 4 × String)
  captcha : Bool
deriving DecidableEq

/-- Outcome of `login`: success, or one of the typed errors it raises. -/
inductive LoginResult where
  | ok
  | errLogin (e : String)
  | errRobot (e : String)
  | errElem (e : String)
deriving DecidableEq

/-- The trailing checks of `login` (salon_board_client.py, lines 496-542):
explicit error message, CAPTCHA, still-on-login-page, else success. -/
def loginTailChecks (obs : LoginObs) (logs : List String) (urlF : String) :
    List String × LoginResult :=
  match obs.errText with
  | some it =>
    (logs ++ ["Login error message detected (" ++ errIndNames.getD it.1 "" ++ "): " ++ it.2],
     LoginResult.errLogin it.2)
  | none =>
    if obs.captcha then
      (logs ++ ["CAPTCHA detected on login page"],
       LoginResult.errRobot "CAPTCHA detected during login")
    else if isSub "login".data (pyLower urlF.data) then
      (logs, LoginResult.errLogin "Login failed - still on login page")
    else
      (logs ++ ["Login appears successful"], LoginResult.ok)

/-- Observable behaviour of `SALONBoardClient.login(login_id, password)`
(salon_board_client.py, lines 364-551): the emitted log messages, in
order, and the outcome.  The credential values flow into `page.fill`
(browser side, not an observable output here) and into the first log
message; screenshots carry no credential data and are omitted. -/
def loginTrace (loginId password : String) (obs : LoginObs) :
    List String × LoginResult :=
  let logs0 := ["Attempting to login to SALON BOARD as " ++ loginId]
  match obs.userSel with
  | none => (logs0, LoginResult.errElem "Could not find user ID input field")
  | some ui =>
    let logs1 := logs0 ++ ["Filled user ID using selector: " ++ userSelNames.getD ui ""]
    match obs.pwSel with
    | none => (logs1, LoginResult.errElem "Could not find password input field")
    | some pwi =>
      let logs2 := logs1 ++ ["Filled password using selector: " ++ pwSelNames.getD pwi ""]
      match obs.submitSel with
      | none => (logs2, LoginResult.errElem "Could not find login button")
      | some si =>
        let logs3 := logs2 ++
          ["Clicked login button using selector: " ++ submitSelNames.getD si "",
           "Waiting for navigation after login..."]
        if obs.navTimeout then
          (logs3 ++ ["Navigation timeout after login. Current URL: " ++ obs.url1,
            "Login timeout: " ++ obs.timeoutMsg],
           LoginResult.errLogin ("Login timeout: " ++ obs.timeoutMsg))
        else
          let logs4 := logs3 ++ ["Navigation completed, current URL: " ++ obs.url1]
          match obs.okInd with
          | some ii =>
            (logs4 ++ ["Login successful (found: " ++ okIndNames.getD ii "" ++ ")"] ++
              (if ii = (1 : Fin 3) then
                ["Salon selection screen detected, waiting for page to stabilize..."]
              else []),
             LoginResult.ok)
          | none =>
            if isSub "login/dologin".data (pyLower obs.url1.data) then
              let logs5 := logs4 ++ ["Login redirect page detected, waiting for final destination..."]
              if obs.redirectOk then
                let logs6 := logs5 ++ ["Redirect finished at " ++ obs.url2]
                match obs.okInd2 with
                | some ii =>
                  (logs6 ++ ["Login successful after redirect (found: " ++
                      okIndNames.getD ii "" ++ ")"] ++
                    (if ii = (1 : Fin 3) then
                      ["Salon selection screen detected after redirect"]
                    else []),
                   LoginResult.ok)
                | none => loginTailChecks obs logs6 obs.url2
              else
                loginTailChecks obs
                  (logs5 ++ ["Login redirect did not complete within expected time"]) obs.url1
            else
              loginTailChecks obs logs4 obs.url1

/-- `publish_to_salon_board_task` receives the decrypted credentials
(tasks.py, line 437) and passes them only to `client.login` (line 455);
they do not enter any event payload, result dictionary or log statement of
the task itself, so the task trace is the same function of the run context
and outcomes for every credential value. -/
def publishTaskRun (loginId password : String) (ctx : Ctx) (f : Nat → PubOutcome) :
    List AttemptRes :=
  runPub ctx f

@[simp] theorem isRetryNotice_started (m : String) : isRetryNotice (Ev.started m) = false := rfl

@[simp] theorem isRetryNotice_failed (m : String) : isRetryNotice (Ev.failed m) = false := rfl

@[simp] theorem isRetryNotice_completed (m : String) : isRetryNotice (Ev.completed m) = false := rfl

@[simp] theorem isRetryNotice_statusUpdate (a b : String) :
    isRetryNotice (Ev.statusUpdate a b) = false := rfl

@[simp] theorem percOf_started (m : String) : percOf (Ev.started m) = none := rfl

@[simp] theorem percOf_failed (m : String) : percOf (Ev.failed m) = none := rfl

@[simp] theorem percOf_completed (m : String) : percOf (Ev.completed m) = none := rfl

@[simp] theorem percOf_statusUpdate (a b : String) : percOf (Ev.statusUpdate a b) = none := rfl

@[simp] theorem percOf_sp0 (m : String) : percOf (sendProgress 0 m) = some 0 := rfl

@[simp] theorem percOf_sp5 (m : String) : percOf (sendProgress 5 m) = some 5 := rfl

@[simp] theorem percOf_sp10 (m : String) : percOf (sendProgress 10 m) = some 10 := rfl

@[simp] theorem percOf_sp15 (m : String) : percOf (sendProgress 15 m) = some 15 := rfl

@[simp] theorem percOf_sp20 (m : String) : percOf (sendProgress 20 m) = some 20 := rfl

@[simp] theorem percOf_sp30 (m : String) : percOf (sendProgress 30 m) = some 30 := rfl

@[simp] theorem percOf_sp50 (m : String) : percOf (sendProgress 50 m) = some 50 := rfl

@[simp] theorem percOf_sp80 (m : String) : percOf (sendProgress 80 m) = some 80 := rfl

@[simp] theorem percOf_sp100 (m : String) : percOf (sendProgress 100 m) = some 100 := rfl


@[simp] theorem isRetryNotice_msg1 (p : Nat) :
    isRetryNotice (sendProgress p "準備中...") = false :=
  isRetryNotice_false_of_head (by decide)

@[simp] theorem isRetryNotice_msg2 (p : Nat) :
    isRetryNotice (sendProgress p "認証情報を確認中...") = false :=
  isRetryNotice_false_of_head (by decide)

@[simp] theorem isRetryNotice_msg3 (p : Nat) :
    isRetryNotice (sendProgress p "ブラウザを起動中...") = false :=
  isRetryNotice_false_of_head (by decide)

@[simp] theorem isRetryNotice_msg4 (p : Nat) :
    isRetryNotice (sendProgress p "SALON BOARDにログイン中...") = false :=
  isRetryNotice_false_of_head (by decide)

@[simp] theorem isRetryNotice_msg5 (p : Nat) :
    isRetryNotice (sendProgress p "ログイン成功。投稿を作成中...") = false :=
  isRetryNotice_false_of_head (by decide)

@[simp] theorem isRetryNotice_msg6 (p : Nat) :
    isRetryNotice (sendProgress p "投稿が完了しました") = false :=
  isRetryNotice_false_of_head (by decide)

@[simp] theorem isRetryNotice_msg7 (p : Nat) :
    isRetryNotice (sendProgress p "プロンプトを準備中...") = false :=
  isRetryNotice_false_of_head (by decide)

@[simp] theorem isRetryNotice_msg8 (p : Nat) :
    isRetryNotice (sendProgress p "Gemini AIに送信中...") = false :=
  isRetryNotice_false_of_head (by decide)

@[simp] theorem isRetryNotice_msg9 (p : Nat) :
    isRetryNotice (sendProgress p "AIが3つの記事案を生成中... (これには数秒〜十数秒かかります)") = false :=
  isRetryNotice_false_of_head (by decide)

@[simp] theorem isRetryNotice_msg10 (p : Nat) :
    isRetryNotice (sendProgress p "生成完了。データベースを更新中...") = false :=
  isRetryNotice_false_of_head (by decide)

@[simp] theorem isRetryNotice_msg11 (p : Nat) :
    isRetryNotice (sendProgress p "3つの記事案が生成されました。選択画面に移動します。") = false :=
  isRetryNotice_false_of_head (by decide)

@[simp] theorem isRetryNotice_imgMsg (pct n : Nat) :
    isRetryNotice (sendProgress pct ("画像" ++ natToStr n ++ "枚を準備しました")) = false := by
  apply isRetryNotice_false_of_head
  rw [String.data_append, String.data_append]
  rw [show "画像".data = ['画', '像'] from by decide]
  simp

@[simp] theorem isRetryNotice_noticeMsg (pct r m : Nat) :
    isRetryNotice (sendProgress pct (retryNoticeMsg r m)) = true := by
  show hasLead retryNoticeLead (retryNoticeMsg r m).data = true
  unfold retryNoticeMsg
  simp only [String.data_append, List.append_assoc]
  unfold hasLead
  have h1 : matchLead retryNoticeLead "エラーが発生しました。リトライ中... (".data =
      some "... (".data := by decide
  rw [matchLead_append_some h1]
  rfl

/-- C3: a publish job whose every execution raises a retryable error (such
as `ElementNotFoundError`) runs exactly `max_retries + 1 = 4` times, the
retries being scheduled with countdowns 120s, 240s, 360s (120s times the
attempt number); a generation job in the same situation runs 4 times with
countdowns 60s, 120s, 180s. -/
theorem c3_retry_bound (ctx : Ctx) (ep eg : String) (oldStatus : String)
    (f : Nat → PubOutcome) (g : Nat → GenOutcome)
    (hf : ∀ n, f n = PubOutcome.publishPhase (PubErr.other ep))
    (hg : ∀ n, g n = GenOutcome.genFail eg) :
    (runPub ctx f).length = 4 ∧
    (runPub ctx f).filterMap (fun a => a.retryCountdown) = [120, 240, 360] ∧
    (runGen oldStatus g).length = 4 ∧
    (runGen oldStatus g).filterMap (fun a => a.retryCountdown) = [60, 120, 180] := by
  have hp : ∀ r, (publishAttempt r 3 ctx (f r)).retryCountdown =
      if r < 3 then some (120 * (r + 1)) else none := by
    intro r
    rw [hf r]
    by_cases hr : r < 3
    · rw [if_pos hr]
      simp [publishAttempt, handlePubErr, genericPubBranch, hr]
    · rw [if_neg hr]
      simp [publishAttempt, handlePubErr, genericPubBranch, hr]
  have hgn : ∀ r, (genAttempt r 3 oldStatus (g r)).retryCountdown =
      if r < 3 then some (60 * (r + 1)) else none := by
    intro r
    rw [hg r]
    by_cases hr : r < 3
    · rw [if_pos hr]
      simp [genAttempt, hr]
    · rw [if_neg hr]
      simp [genAttempt, hr]
  obtain ⟨hl1, hc1⟩ := runTask_bounded (fun r => publishAttempt r 3 ctx (f r)) 120 hp
    1000 0 (by omega) (by omega)
  obtain ⟨hl2, hc2⟩ := runTask_bounded (fun r => genAttempt r 3 oldStatus (g r)) 60 hgn
    1000 0 (by omega) (by omega)
  refine ⟨hl1, ?_, hl2, ?_⟩
  · rw [show runPub ctx f = runTask (fun r => publishAttempt r 3 ctx (f r)) 1000 0 from rfl]
    rw [hc1]
    decide
  · rw [show runGen oldStatus g = runTask (fun r => genAttempt r 3 oldStatus (g r)) 1000 0 from rfl]
    rw [hc2]
    decide

/-- Witness for C3 at a concrete always-failing outcome function. -/
theorem c3_retry_bound_witness :
    (runPub ⟨2, "publishing"⟩ (fun _ => PubOutcome.publishPhase
      (PubErr.other "ElementNotFoundError: Could not navigate to blog form"))).length = 4 ∧
    (runPub ⟨2, "publishing"⟩ (fun _ => PubOutcome.publishPhase
      (PubErr.other "ElementNotFoundError: Could not navigate to blog form"))).filterMap
      (fun a => a.retryCountdown) = [120, 240, 360] ∧
    (runGen "generating" (fun _ => GenOutcome.genFail "quota exceeded")).length = 4 ∧
    (runGen "generating" (fun _ => GenOutcome.genFail "quota exceeded")).filterMap
      (fun a => a.retryCountdown) = [60, 120, 180] :=
  c3_retry_bound ⟨2, "publishing"⟩ "ElementNotFoundError: Could not navigate to blog form"
    "quota exceeded" "generating" _ _ (fun _ => rfl) (fun _ => rfl)

/-- C4: an attempt that raises `RobotDetectionError` — whether during login
or during publication — never schedules a retry, for any remaining retry
budget: the attempt log is finalized as failed, a `failed` progress event
is the last event emitted, and a structured failure result is returned. -/
theorem c4_robot_never_retried (r : Nat) (ctx : Ctx) (e : String) :
    ((publishAttempt r 3 ctx (PubOutcome.loginPhase (PubErr.robot e))).retryCountdown = none ∧
     (publishAttempt r 3 ctx (PubOutcome.loginPhase (PubErr.robot e))).logStatus = "failed" ∧
     (publishAttempt r 3 ctx (PubOutcome.loginPhase (PubErr.robot e))).result =
       { success := false, error := some e } ∧
     (publishAttempt r 3 ctx (PubOutcome.loginPhase (PubErr.robot e))).events.getLast? =
       some (Ev.failed "CAPTCHA認証が検出されました。手動での対応が必要です。")) ∧
    ((publishAttempt r 3 ctx (PubOutcome.publishPhase (PubErr.robot e))).retryCountdown = none ∧
     (publishAttempt r 3 ctx (PubOutcome.publishPhase (PubErr.robot e))).logStatus = "failed" ∧
     (publishAttempt r 3 ctx (PubOutcome.publishPhase (PubErr.robot e))).result =
       { success := false, error := some e } ∧
     (publishAttempt r 3 ctx (PubOutcome.publishPhase (PubErr.robot e))).events.getLast? =
       some (Ev.failed "CAPTCHA認証が検出されました。手動での対応が必要です。")) := by
  constructor <;>
    exact ⟨rfl, rfl, rfl, by simp [publishAttempt, handlePubErr]⟩

/-- C5: when the portal already reported success but persisting the local
result failed, no retry is ever scheduled (for any remaining retry
budget), and the failure surfaces with the distinct
"published on SALON BOARD but saving failed, verify in the portal"
message, different from the ordinary publication-failure message; the
attempt log records the distinct error prefix as well. -/
theorem c5_after_success_never_retried (r : Nat) (ctx : Ctx) (e : String) :
    (publishAttempt r 3 ctx (PubOutcome.dbFailAfterSuccess e)).retryCountdown = none ∧
    (publishAttempt r 3 ctx (PubOutcome.dbFailAfterSuccess e)).logStatus = "failed" ∧
    (publishAttempt r 3 ctx (PubOutcome.dbFailAfterSuccess e)).logError =
      "SALON BOARDでは公開済みですが保存に失敗: " ++ e ∧
    (publishAttempt r 3 ctx (PubOutcome.dbFailAfterSuccess e)).result.success = false ∧
    (publishAttempt r 3 ctx (PubOutcome.dbFailAfterSuccess e)).events.getLast? =
      some (Ev.failed "SALON BOARDでは公開済みですが、アプリ側の保存に失敗しました。管理画面で公開済みかご確認ください。") ∧
    ("SALON BOARDでは公開済みですが、アプリ側の保存に失敗しました。管理画面で公開済みかご確認ください。" : String) ≠
      "SALON BOARDへの投稿に失敗しました" := by
  have hcond : ¬ (true = false ∧ r < 3) := by simp
  refine ⟨?_, ?_, ?_, ?_, ?_, by decide⟩ <;>
    simp [publishAttempt, genericPubBranch, hcond]

/-- C8 counterexample: in the run of an attempt that ends in a scheduled
retry, the retry notification resets the percentage to 0 after 50, so the
percent values emitted between the `started` event and the run's terminal
`failed` event are not non-decreasing. -/
theorem c8_counterexample :
    percents (publishAttempt 0 3 ⟨2, "publishing"⟩
      (PubOutcome.publishPhase (PubErr.other "ElementNotFoundError"))).events =
      [5, 10, 15, 20, 30, 50, 0] ∧
    ¬ List.Chain' (· ≤ ·) (percents (publishAttempt 0 3 ⟨2, "publishing"⟩
      (PubOutcome.publishPhase (PubErr.other "ElementNotFoundError"))).events) := by
  refine ⟨by decide, ?_⟩
  rw [show percents (publishAttempt 0 3 ⟨2, "publishing"⟩
      (PubOutcome.publishPhase (PubErr.other "ElementNotFoundError"))).events =
      [5, 10, 15, 20, 30, 50, 0] from by decide]
  simp [List.chain'_cons]

/-- C8 amended: within one task execution the progress percentages are
non-decreasing except for the retry notification `progress(0, ...)`
emitted when (and only when) the handler schedules a retry; with that
notification filtered out, every publish attempt and every generation
attempt emits a non-decreasing percent sequence up to its terminal
event. -/
theorem c8_progress_monotonic (r : Nat) (ctx : Ctx) (o : PubOutcome)
    (oldStatus : String) (go : GenOutcome) :
    List.Chain' (· ≤ ·) (percents
      ((publishAttempt r 3 ctx o).events.filter (fun e => !isRetryNotice e))) ∧
    List.Chain' (· ≤ ·) (percents
      ((genAttempt r 3 oldStatus go).events.filter (fun e => !isRetryNotice e))) := by
  constructor
  · cases o with
    | missingContent =>
      simp [publishAttempt, percents, List.filter_cons, List.chain'_cons]
    | accountError e =>
      simp [publishAttempt, percents, List.filter_cons, List.chain'_cons]
    | loginPhase err =>
      cases err with
      | robot e =>
        simp [publishAttempt, handlePubErr, percents, List.filter_cons, List.chain'_cons]
      | login e =>
        simp [publishAttempt, handlePubErr, percents, List.filter_cons, List.chain'_cons]
      | salonSel e =>
        simp [publishAttempt, handlePubErr, percents, List.filter_cons, List.chain'_cons]
      | other e =>
        by_cases hr : r < 3 <;>
          simp [publishAttempt, handlePubErr, genericPubBranch, hr, percents,
            List.filter_cons, List.chain'_cons]
    | publishPhase err =>
      cases err with
      | robot e =>
        simp [publishAttempt, handlePubErr, percents, List.filter_cons, List.chain'_cons]
      | login e =>
        simp [publishAttempt, handlePubErr, percents, List.filter_cons, List.chain'_cons]
      | salonSel e =>
        simp [publishAttempt, handlePubErr, percents, List.filter_cons, List.chain'_cons]
      | other e =>
        by_cases hr : r < 3 <;>
          simp [publishAttempt, handlePubErr, genericPubBranch, hr, percents,
            List.filter_cons, List.chain'_cons]
    | pubUnclear m =>
      by_cases hr : r < 3 <;>
        simp [publishAttempt, genericPubBranch, hr, percents, List.filter_cons,
          List.chain'_cons]
    | dbFailAfterSuccess e =>
      have hcond : ¬ (true = false ∧ r < 3) := by simp
      simp [publishAttempt, genericPubBranch, hcond, percents, List.filter_cons,
        List.chain'_cons]
    | success url =>
      simp [publishAttempt, percents, List.filter_cons, List.chain'_cons]
  · cases go with
    | noKeywords => simp [genAttempt, percents, List.filter_cons, List.chain'_cons]
    | genFail e =>
      by_cases hr : r < 3 <;>
        simp [genAttempt, hr, percents, List.filter_cons, List.chain'_cons]
    | success => simp [genAttempt, percents, List.filter_cons, List.chain'_cons]

/-- C1 counterexample: the claim says success is returned exactly when the
URL matches a completion pattern (and a phrase or back control is found),
but for a URL matching neither the completion nor the confirm pattern the
code returns success on a phrase match alone. -/
theorem c1_counterexample :
    (checkPublicationSuccess "https://salonboard.com/other" "投稿しました" ""
      false false "shot.png").success = true ∧
    isCompletionUrl "https://salonboard.com/other" = false := by
  constructor <;> decide

/-- C1 amended: `_check_publication_success` is a pure decision over
(final URL, page text, page HTML, locator hit, back-control presence)
returning success exactly when a success phrase matches (raw,
whitespace-normalized, or via the locator fallback) and the URL is on the
completion pattern or off the confirm pattern, or a back-to-list control
is present and the URL is on the completion pattern; every failure carries
the message "Publication status unclear", and in particular the claim's
two concrete examples hold. -/
theorem c1_decision_rule (url text html : String) (locatorHit backControl : Bool)
    (shot : String) :
    ((checkPublicationSuccess url text html locatorHit backControl shot).success =
      ((phraseDetected text html locatorHit &&
        (isCompletionUrl url || !isConfirmUrl url)) ||
       (backControl && isCompletionUrl url)) ∧
     (checkPublicationSuccess url text html locatorHit backControl shot).message =
      (if (phraseDetected text html locatorHit &&
            (isCompletionUrl url || !isConfirmUrl url)) ||
          (backControl && isCompletionUrl url) then "Blog post published successfully"
       else "Publication status unclear") ∧
     (checkPublicationSuccess url text html locatorHit backControl shot).url = url ∧
     (checkPublicationSuccess url text html locatorHit backControl shot).screenshotPath =
       shot) ∧
    (checkPublicationSuccess "https://salonboard.com/CLP/bt/blog/blog/complete/"
      "ブログの登録が完了しました" "" false true "s").success = true ∧
    ((checkPublicationSuccess "https://salonboard.com/CLP/bt/blog/blog/confirm/"
      "" "" false false "s").success = false ∧
     (checkPublicationSuccess "https://salonboard.com/CLP/bt/blog/blog/confirm/"
      "" "" false false "s").message = "Publication status unclear") := by
  refine ⟨?_, by decide, by decide, by decide⟩
  cases hph : phraseDetected text html locatorHit <;>
    cases hc : isCompletionUrl url <;>
    cases hcf : isConfirmUrl url <;>
    cases backControl <;>
      simp [checkPublicationSuccess, hph, hc, hcf]

/-- C6 counterexample: when the specific commit control `a#reflect` is
absent, `_click_reflect_button` does fall back to a generic submit-button
selector and clicks it, contradicting the claim that no generic submit
selector is ever clicked. -/
theorem c6_counterexample :
    clickReflect false true true = some "button[type=\"submit\"]" ∧
    ("button[type=\"submit\"]" : String) ≠ "a#reflect" := by
  constructor <;> decide

/-- C6 amended: the commit step clicks the explicit `a#reflect` control
whenever it is present — a generic submit selector is clicked only when
`a#reflect` is not found, in which case the first matching of
`button[type=submit]`, `input[type=submit]` is clicked (or nothing when
neither matches). -/
theorem c6_reflect_click (hasReflect hasButtonSubmit hasInputSubmit : Bool) :
    (hasReflect = true →
      clickReflect hasReflect hasButtonSubmit hasInputSubmit = some "a#reflect") ∧
    ((clickReflect hasReflect hasButtonSubmit hasInputSubmit = some "button[type=\"submit\"]" ∨
      clickReflect hasReflect hasButtonSubmit hasInputSubmit = some "input[type=\"submit\"]") →
      hasReflect = false) ∧
    (clickReflect false hasButtonSubmit hasInputSubmit =
      if hasButtonSubmit then some "button[type=\"submit\"]"
      else if hasInputSubmit then some "input[type=\"submit\"]"
      else none) := by
  cases hasReflect <;> cases hasButtonSubmit <;> cases hasInputSubmit <;>
    refine ⟨?_, ?_, ?_⟩ <;> decide

/-- Witness for C6 at concrete control availabilities. -/
theorem c6_reflect_click_witness :
    clickReflect true true true = some "a#reflect" ∧ (false : Bool) = false :=
  ⟨(c6_reflect_click true true true).1 rfl,
   (c6_reflect_click false true true).2.1 (Or.inl (by decide))⟩

/-- C7: with `max_length = 25`, `smart_truncate` always returns at most 25
characters, returns every input of length at most 25 unchanged, and maps
the 31-character punctuation-free input
"0123456789012345678901234567890" to exactly its first 25 characters. -/
theorem c7_title_truncation :
    (∀ t : List Char, (smartTruncate t 25).length ≤ 25) ∧
    (∀ t : List Char, t.length ≤ 25 → smartTruncate t 25 = t) ∧
    smartTruncate "0123456789012345678901234567890".data 25 =
      "0123456789012345678901234".data ∧
    (smartTruncate "0123456789012345678901234567890".data 25).length = 25 := by
  refine ⟨?_, ?_, by decide, by decide⟩
  · intro t
    unfold smartTruncate
    by_cases h0 : t.isEmpty
    · simp [h0]
    · rw [if_neg h0]
      by_cases h1 : t.length ≤ 25
      · rw [if_pos h1]
        exact h1
      · rw [if_neg h1, if_neg (by omega)]
        cases hlp : lastPunctEnd (t.take 25) with
        | none =>
          simp only
          rw [List.length_take]
          omega
        | some cutPoint =>
          simp only
          by_cases h2 : 25 ≤ cutPoint * 2
          · rw [if_pos h2]
            rw [List.length_take, List.length_take]
            omega
          · rw [if_neg h2]
            rw [List.length_take]
            omega
  · intro t ht
    unfold smartTruncate
    by_cases h0 : t.isEmpty
    · rw [if_pos h0]
      exact (List.isEmpty_iff.mp h0).symm
    · rw [if_neg h0, if_pos ht]

/-- Witness for C7 at a concrete short title. -/
theorem c7_title_truncation_witness :
    smartTruncate "春のヘアカタログ".data 25 = "春のヘアカタログ".data :=
  c7_title_truncation.2.1 "春のヘアカタログ".data (by decide)

theorem count_filter_pos {l : List Nat} {p : Nat → Bool} {a : Nat} (h : p a = true) :
    List.count a (l.filter p) = List.count a l := by
  induction l with
  | nil => rfl
  | cons x xs ih =>
    by_cases hx : p x = true
    · rw [List.filter_cons_of_pos hx, List.count_cons, List.count_cons, ih]
    · rw [List.filter_cons_of_neg (by simp [hx]), ih, List.count_cons]
      have hxa : (x == a) = false := by
        by_cases hEq : x = a
        · subst hEq
          exact absurd h hx
        · simp [hEq]
      simp [hxa]

theorem filterMap_guard (n : Nat) (g : Nat → String) (l : List Nat) :
    l.filterMap (fun k => if 1 ≤ k ∧ k ≤ n then some (g k) else none) =
      (l.filter (fun k => decide (1 ≤ k ∧ k ≤ n))).map g := by
  induction l with
  | nil => rfl
  | cons x xs ih =>
    by_cases hx : 1 ≤ x ∧ x ≤ n
    · simp [List.filterMap_cons, List.filter_cons, hx, ih]
    · simp only [List.filterMap_cons, List.filter_cons, hx, if_neg, not_false_iff]
      simp [hx, ih]

/-- C2 counterexample: a body that duplicates the `((image_1))` token is
left untouched by the placeholder normalization (index 1 counts as
present), and the DOM fill then uploads the first image twice — image
index 1 is not uploaded exactly once. -/
theorem c2_counterexample :
    fillUploads (ensureImagePlaceholders (canonTok 1 ++ canonTok 1) 1) ["a.jpg"] =
      ["a.jpg", "a.jpg"] ∧
    ¬ List.count 1
        (fillAnchors (ensureImagePlaceholders (canonTok 1 ++ canonTok 1) 1) ["a.jpg"]) = 1 := by
  constructor <;> decide

/-- C2 amended: provided the body's canonical `((image_k))` tokens are
duplicate-free over the indices 1..N and the textual presence check agrees
with the canonical tokens (no alternate-format or leading-zero
placeholders), the composition pipeline — placeholder normalization
followed by the DOM fill — uploads every image index 1..N exactly once,
each in-range token k uploading the k-th image of the list. -/
theorem c2_placeholder_normalization (content : List Char) (images : List String)
    (i : Nat) (hi : i ∈ List.range' 1 images.length)
    (hdup : ∀ j ∈ List.range' 1 images.length, List.count j (scanTokens content) ≤ 1)
    (hdet : ∀ j ∈ List.range' 1 images.length,
      (detected j content = true ↔ j ∈ scanTokens content)) :
    List.count i (fillAnchors (ensureImagePlaceholders content images.length) images) = 1 ∧
    fillUploads (ensureImagePlaceholders content images.length) images =
      (fillAnchors (ensureImagePlaceholders content images.length) images).map
        (fun k => images.getD (k - 1) "") := by
  constructor
  · rw [fillAnchors_eq]
    have hpi : (fun k => decide (1 ≤ k ∧ k ≤ images.length)) i = true := by
      rw [List.mem_range'_1] at hi
      simp only [decide_eq_true_eq]
      omega
    exact (count_filter_pos hpi).trans
      (ensure_count_eq_one content images.length i hi (hdup i hi) (hdet i hi))
  · rw [fillUploads_eq, fillAnchors_eq, filterMap_guard]

/-- The §8 scenario body: three images, tokens `image_2` and `image_1`
present, `image_3` missing. -/
def c2wContent : List Char :=
  "はじめに".data ++ parSep ++ "本文です".data ++ canonTok 2 ++ parSep ++
    "続きです".data ++ canonTok 1

/-- Three ordered images for the §8 scenario. -/
def c2wImages : List String := ["a.jpg", "b.jpg", "c.jpg"]

/-- Witness for C2 at the §8 scenario input. -/
theorem c2_placeholder_normalization_witness :
    List.count 1 (fillAnchors (ensureImagePlaceholders c2wContent c2wImages.length)
      c2wImages) = 1 ∧
    List.count 2 (fillAnchors (ensureImagePlaceholders c2wContent c2wImages.length)
      c2wImages) = 1 ∧
    List.count 3 (fillAnchors (ensureImagePlaceholders c2wContent c2wImages.length)
      c2wImages) = 1 ∧
    fillUploads (ensureImagePlaceholders c2wContent c2wImages.length) c2wImages =
      (fillAnchors (ensureImagePlaceholders c2wContent c2wImages.length) c2wImages).map
        (fun k => c2wImages.getD (k - 1) "") :=
  ⟨(c2_placeholder_normalization c2wContent c2wImages 1 (by decide) (by decide) (by decide)).1,
   (c2_placeholder_normalization c2wContent c2wImages 2 (by decide) (by decide) (by decide)).1,
   (c2_placeholder_normalization c2wContent c2wImages 3 (by decide) (by decide) (by decide)).1,
   (c2_placeholder_normalization c2wContent c2wImages 1 (by decide) (by decide) (by decide)).2⟩

/-- C10: during the DOM fill every out-of-range placeholder token (index
0 or above the image count) is silently skipped — it creates no anchor and
uploads nothing — while every in-range token k uploads exactly the k-th
image `images[k-1]`; list indexing is always guarded. -/
theorem c10_out_of_range_guard (content : List Char) (images : List String) :
    fillUploads content images = (scanTokens content).filterMap
      (fun k => if 1 ≤ k ∧ k ≤ images.length then some (images.getD (k - 1) "") else none) ∧
    fillAnchors content images = (scanTokens content).filter
      (fun k => decide (1 ≤ k ∧ k ≤ images.length)) ∧
    (∀ k, k ∈ fillAnchors content images → 1 ≤ k ∧ k ≤ images.length) := by
  refine ⟨fillUploads_eq content images, fillAnchors_eq content images, ?_⟩
  intro k hk
  rw [fillAnchors_eq] at hk
  have hmem := List.of_mem_filter hk
  simpa using hmem

/-- Witness for C10 at a body with one out-of-range token. -/
theorem c10_out_of_range_guard_witness :
    fillUploads (canonTok 5 ++ canonTok 1) ["x.jpg"] =
      (scanTokens (canonTok 5 ++ canonTok 1)).filterMap
        (fun k => if 1 ≤ k ∧ k ≤ (["x.jpg"] : List String).length then
          some ((["x.jpg"] : List String).getD (k - 1) "") else none) ∧
    (1 ≤ 1 ∧ 1 ≤ (["x.jpg"] : List String).length) :=
  ⟨(c10_out_of_range_guard (canonTok 5 ++ canonTok 1) ["x.jpg"]).1,
   (c10_out_of_range_guard (canonTok 5 ++ canonTok 1) ["x.jpg"]).2.2 1 (by decide)⟩

/-- C9 counterexample: the first log message of `login` is
"Attempting to login to SALON BOARD as {login_id}", so the login id does
appear in an emitted log message and the log output depends on the
credential value. -/
theorem c9_counterexample :
    ((loginTrace "alice" "hunter2"
        ⟨some 0, some 0, some 0, false, "", "https://salonboard.com/CNC/top",
         some 0, false, "", none, none, false⟩).1.head?.map
      (fun m => isSub "alice".data m.data)) = some true ∧
    (loginTrace "alice" "hunter2"
        ⟨some 0, some 0, some 0, false, "", "https://salonboard.com/CNC/top",
         some 0, false, "", none, none, false⟩).1 ≠
      (loginTrace "bob" "hunter2"
        ⟨some 0, some 0, some 0, false, "", "https://salonboard.com/CNC/top",
         some 0, false, "", none, none, false⟩).1 := by
  constructor <;> decide

set_option maxHeartbeats 2000000 in
/-- C9 amended: the secret never appears in any observable output and all
outputs are independent of it; the login id appears exactly in the first
log message "Attempting to login to SALON BOARD as {login_id}" — every
other log message, the login outcome, and the publish task's event trace,
result dictionaries and log fields are independent of both credential
values. -/
theorem c9_credential_independence (loginId password loginId2 password2 : String)
    (obs : LoginObs) (ctx : Ctx) (f : Nat → PubOutcome) :
    (loginTrace loginId password obs).1.tail = (loginTrace loginId2 password2 obs).1.tail ∧
    (loginTrace loginId password obs).2 = (loginTrace loginId2 password2 obs).2 ∧
    (loginTrace loginId password obs).1.head? =
      some ("Attempting to login to SALON BOARD as " ++ loginId) ∧
    publishTaskRun loginId password ctx f = publishTaskRun loginId2 password2 ctx f := by
  obtain ⟨us, ps, ss, nt, tm, u1, oi, ro, u2, oi2, et, cap⟩ := obs
  cases us <;> cases ps <;> cases ss <;> cases nt <;> cases oi <;> cases ro <;>
    cases oi2 <;> cases et <;> cases cap <;>
      exact ⟨by simp [loginTrace, loginTailChecks] <;> split_ifs <;> simp,
        by simp [loginTrace, loginTailChecks] <;> split_ifs <;> simp,
        by simp [loginTrace, loginTailChecks] <;> split_ifs <;> simp, rfl⟩
